import Mathlib

/-!
Shallow embedding of the task-management-api domain layer.

The persistent state (a relational database accessed through GORM) is
modelled as a `DB` structure holding one list of rows per table, together
with autoincrement counters for the integer primary keys.  Soft deletion
(a `deleted_at` column) is modelled as a `deleted : Bool` flag on the rows
of the tables that carry such a column (users, organizations, tasks, task
assignments); `organization_members` has no such column in the source and
is therefore hard-deleted.  Repository methods become pure functions on
`DB`; service methods return `Except SvcError` values, mirroring the Go
error returns.  External collaborators (clock, bcrypt, invite-code
generator, the AI extractor) are passed in as explicit arguments.
-/

set_option autoImplicit false

deriving instance DecidableEq for Except

namespace TaskAPI

/-- Timestamps are modelled as integers (seconds); only their order matters. -/
abbrev Time := Int

/-- models.TaskStatus is a Go string type. -/
abbrev TaskStatus := String

/-- models.TaskStatusTodo -/
def TaskStatusTodo : TaskStatus := "TODO"

/-- models.TaskStatusDone -/
def TaskStatusDone : TaskStatus := "DONE"

/-- models.OrganizationRole is a Go string type. -/
abbrev OrganizationRole := String

/-- models.RoleOwner -/
def RoleOwner : OrganizationRole := "owner"

/-- models.RoleMember -/
def RoleMember : OrganizationRole := "member"

/-- strings.TrimSpace: drop leading and trailing whitespace. -/
def trimSpace (s : String) : String :=
  ⟨((s.data.dropWhile Char.isWhitespace).reverse.dropWhile Char.isWhitespace).reverse⟩

/-- models.User row: id, username, password hash, soft-delete flag. -/
structure User where
  id : Nat
  username : String
  passwordHash : String
  deleted : Bool
deriving DecidableEq, Repr

/-- models.Organization row: id, name, invite code, soft-delete flag. -/
structure Organization where
  id : Nat
  name : String
  inviteCode : String
  deleted : Bool
deriving DecidableEq, Repr

/-- models.OrganizationMember row: composite key (organization, user),
role and join timestamp.  This table has no deleted_at column. -/
structure OrganizationMember where
  organizationID : Nat
  userID : Nat
  role : OrganizationRole
  joinedAt : Time
deriving DecidableEq, Repr

/-- models.TaskAssignment row: composite key (task, user), soft-delete flag. -/
structure TaskAssignment where
  taskID : Nat
  userID : Nat
  deleted : Bool
deriving DecidableEq, Repr

/-- models.Task row. -/
structure Task where
  id : Nat
  title : String
  description : String
  status : TaskStatus
  dueDate : Option Time
  creatorID : Nat
  organizationID : Nat
  createdAt : Time
  deleted : Bool
deriving DecidableEq, Repr

/-- services.GeneratedTask: one candidate produced by the AI extractor. -/
structure GeneratedTask where
  title : String
  description : String
  dueDate : Option Time
deriving DecidableEq, Repr

/-- The whole database: one list of rows per table plus autoincrement counters. -/
structure DB where
  users : List User
  orgs : List Organization
  members : List OrganizationMember
  tasks : List Task
  assignments : List TaskAssignment
  nextUserID : Nat
  nextOrgID : Nat
  nextTaskID : Nat
deriving DecidableEq, Repr

/-- The typed domain errors of the service layer (the Err... variables in
the services package), plus `wrapped` for generic wrapped storage errors. -/
inductive SvcError where
  | notOrganizationMember
  | taskNotFound
  | notTaskCreator
  | taskPermissionDenied
  | noUserIDsProvided
  | titleRequired
  | titleEmpty
  | invalidTaskAssignee
  | aiServiceNotConfigured
  | aiNoTasksGenerated
  | aiNoValidTasks
  | aiTooManyTasks
  | organizationNotFound
  | invalidOrganizationName
  | inviteCodeGenerationFailed
  | invalidInviteCode
  | alreadyOrganizationMember
  | cannotRemoveYourself
  | organizationMemberNotFound
  | usernameRequired
  | usernameTaken
  | passwordTooShort
  | failedToHashPassword
  | failedToCreateUser
  | failedToCreateOrg
  | failedToAddMember
  | wrapped (msg : String)
deriving DecidableEq, Repr

/-- Errors raised inside the signup transaction body
(repository.ErrCreateUser / ErrCreateOrganization / ErrCreateOrganizationMember). -/
inductive RepoError where
  | createUser
  | createOrganization
  | createOrganizationMember
deriving DecidableEq, Repr

namespace GormOrganizationRepository

/-- FindMember: first membership row for (organizationID, userID).
The table has no deleted_at column, so no liveness filter applies. -/
def FindMember (db : DB) (organizationID userID : Nat) : Option OrganizationMember :=
  db.members.find? (fun m => m.organizationID = organizationID ∧ m.userID = userID)

/-- ListMembersByUserID: all membership rows of a user. -/
def ListMembersByUserID (db : DB) (userID : Nat) : List OrganizationMember :=
  db.members.filter (fun m => m.userID = userID)

/-- Create: insert an organization row, assigning the autoincrement id. -/
def Create (db : DB) (org : Organization) : DB × Organization :=
  let created := { org with id := db.nextOrgID }
  ({ db with orgs := db.orgs ++ [created], nextOrgID := db.nextOrgID + 1 }, created)

/-- AddMember: insert a membership row. -/
def AddMember (db : DB) (member : OrganizationMember) : DB :=
  { db with members := db.members ++ [member] }

/-- RemoveMember: hard-delete the membership rows matching (organizationID, userID). -/
def RemoveMember (db : DB) (organizationID userID : Nat) : DB :=
  { db with members :=
      db.members.filter (fun m => ¬(m.organizationID = organizationID ∧ m.userID = userID)) }

end GormOrganizationRepository

namespace GormTaskRepository

/-- FindByID: first live task row with the given id. -/
def FindByID (db : DB) (id : Nat) : Option Task :=
  db.tasks.find? (fun t => t.id = id ∧ t.deleted = false)

/-- Create: insert a task row, assigning the autoincrement id. -/
def Create (db : DB) (task : Task) : DB × Task :=
  let created := { task with id := db.nextTaskID }
  ({ db with tasks := db.tasks ++ [created], nextTaskID := db.nextTaskID + 1 }, created)

/-- Update (gorm Save): replace the task row with the given primary key. -/
def Update (db : DB) (task : Task) : DB :=
  { db with tasks := db.tasks.map (fun t => if t.id = task.id then task else t) }

/-- One step of the ON CONFLICT (task_id, user_id) DO UPDATE deleted_at = NULL
upsert: if a row with the key exists (live or soft-deleted), revive it,
otherwise insert a fresh live row. -/
def upsertAssignment (rows : List TaskAssignment) (taskID userID : Nat) : List TaskAssignment :=
  if rows.any (fun r => r.taskID = taskID ∧ r.userID = userID) then
    rows.map (fun r =>
      if r.taskID = taskID ∧ r.userID = userID then { r with deleted := false } else r)
  else
    rows ++ [{ taskID := taskID, userID := userID, deleted := false }]

/-- AssignUsers: bulk upsert of assignment rows for the given users. -/
def AssignUsers (db : DB) (taskID : Nat) (userIDs : List Nat) : DB :=
  { db with assignments :=
      userIDs.foldl (fun rows uid => upsertAssignment rows taskID uid) db.assignments }

/-- UnassignUsers: soft-delete the live assignment rows of the given users. -/
def UnassignUsers (db : DB) (taskID : Nat) (userIDs : List Nat) : DB :=
  { db with assignments := db.assignments.map (fun r =>
      if r.taskID = taskID ∧ r.userID ∈ userIDs ∧ r.deleted = false then
        { r with deleted := true }
      else r) }

/-- CountUsersByIDs: the SQL join count of
users JOIN organization_members ON users.id = organization_members.user_id
restricted to the given organization and user-id list: one counted row per
(user row, membership row) pair; only the users table carries the automatic
deleted_at IS NULL condition. -/
def CountUsersByIDs (db : DB) (userIDs : List Nat) (organizationID : Nat) : Nat :=
  ((db.members.filter (fun m =>
      m.organizationID = organizationID ∧ m.userID ∈ userIDs)).map
    (fun m => (db.users.filter
      (fun u => u.deleted = false ∧ u.id = m.userID)).length)).sum

end GormTaskRepository

namespace GormUserRepository

/-- FindByUsername: first live user row with the given username. -/
def FindByUsername (db : DB) (username : String) : Option User :=
  db.users.find? (fun u => u.username = username ∧ u.deleted = false)

/-- Insert a user row inside a transaction, assigning the autoincrement id. -/
def insertUser (db : DB) (user : User) : DB × User :=
  let created := { user with id := db.nextUserID }
  ({ db with users := db.users ++ [created], nextUserID := db.nextUserID + 1 }, created)

/-- CreateWithPersonalOrganization: one transaction creating the user, the
personal organization, and the owner membership.  The three `fail` flags
model the underlying storage failing the corresponding insert; on any
failure the transaction rolls back (the caller keeps the original `DB`). -/
def CreateWithPersonalOrganization (failUser failOrg failMember : Bool) (db : DB)
    (user : User) (org : Organization) (member : OrganizationMember) :
    Except RepoError (DB × User) :=
  if failUser then .error .createUser
  else
    let tx1 := (insertUser db user).1
    let u := (insertUser db user).2
    if failOrg then .error .createOrganization
    else
      let tx2 := (GormOrganizationRepository.Create tx1 org).1
      let o := (GormOrganizationRepository.Create tx1 org).2
      if failMember then .error .createOrganizationMember
      else
        let m := { member with organizationID := o.id, userID := u.id }
        .ok ({ tx2 with members := tx2.members ++ [m] }, u)

end GormUserRepository

/-- services.uniqueUint64: stable first-occurrence de-duplication. -/
def uniqueUint64 (values : List Nat) : List Nat :=
  values.foldl (fun acc v => if v ∈ acc then acc else acc ++ [v]) []

/-- constants.MaxAIGeneratedTasks.  The constants package is not part of the
sources at hand; the spec only requires a fixed maximum on candidate count. -/
def MaxAIGeneratedTasks : Nat := 10

/-- constants.MinPasswordLength.  The constants package is not part of the
sources at hand; only the existence of a minimum length matters here. -/
def MinPasswordLength : Nat := 8

namespace TaskService

/-- services.ListTasksInput -/
structure ListTasksInput where
  userID : Nat
  organizationID : Option Nat
  assignedToMe : Bool
  dueToday : Bool
  status : Option TaskStatus
  sortByDueDate : Bool
  page : Int
  pageSize : Int
deriving DecidableEq, Repr

/-- services.CreateTaskInput -/
structure CreateTaskInput where
  title : String
  description : String
  status : TaskStatus
  dueDate : Option Time
  organizationID : Nat
  creatorID : Nat
deriving DecidableEq, Repr

/-- services.AssignUsersInput -/
structure AssignUsersInput where
  taskID : Nat
  actorID : Nat
  userIDs : List Nat
deriving DecidableEq, Repr

/-- repository.TaskFilter -/
structure TaskFilter where
  organizationIDs : List Nat
  status : Option TaskStatus
  creatorID : Option Nat
  assignedUserID : Option Nat
  dueDateFrom : Option Time
  dueDateTo : Option Time
  sortByDueDate : Bool
  page : Int
  pageSize : Int
deriving DecidableEq, Repr

/-- ensureOrganizationMember: fails NotOrganizationMember when no membership
row exists for (orgID, userID). -/
def ensureOrganizationMember (db : DB) (orgID userID : Nat) : Except SvcError Unit :=
  match GormOrganizationRepository.FindMember db orgID userID with
  | none => .error .notOrganizationMember
  | some _ => .ok ()

/-- resolveAccessibleOrganizationIDs: a requested organization is checked for
membership; otherwise all organizations the user belongs to are returned. -/
def resolveAccessibleOrganizationIDs (db : DB) (userID : Nat)
    (organizationID : Option Nat) : Except SvcError (List Nat) :=
  match organizationID with
  | some oid =>
    match ensureOrganizationMember db oid userID with
    | .error e => .error e
    | .ok _ => .ok [oid]
  | none =>
    .ok ((GormOrganizationRepository.ListMembersByUserID db userID).map
          (fun m => m.organizationID))

/-- Does a task row pass all filters of repository.TaskFilter?
SQL comparisons against a NULL due_date are false. -/
def matchesFilter (db : DB) (filter : TaskFilter) (t : Task) : Bool :=
  (t.deleted = false : Bool) &&
  (t.organizationID ∈ filter.organizationIDs : Bool) &&
  (match filter.status with
   | some s => (t.status = s : Bool)
   | none => true) &&
  (match filter.creatorID with
   | some cid => (t.creatorID = cid : Bool)
   | none => true) &&
  (match filter.assignedUserID with
   | some uid =>
     db.assignments.any (fun r => r.taskID = t.id ∧ r.userID = uid ∧ r.deleted = false)
   | none => true) &&
  (match filter.dueDateFrom with
   | some lo => match t.dueDate with
     | some d => (lo ≤ d : Bool)
     | none => false
   | none => true) &&
  (match filter.dueDateTo with
   | some hi => match t.dueDate with
     | some d => (d < hi : Bool)
     | none => false
   | none => true)

/-- Insert a task into an already sorted list (ORDER BY is realised as an
insertion sort; SQL fixes no order among ties). -/
def insertSorted (le : Task → Task → Bool) (t : Task) : List Task → List Task
  | [] => [t]
  | h :: rest => if le t h then t :: h :: rest else h :: insertSorted le t rest

/-- Sort a task list by the given comparison. -/
def sortTasks (le : Task → Task → Bool) (l : List Task) : List Task :=
  l.foldr (insertSorted le) []

/-- ORDER BY CASE WHEN due_date IS NULL THEN 1 ELSE 0 END, due_date ASC. -/
def dueDateLe (a b : Task) : Bool :=
  match a.dueDate, b.dueDate with
  | none, none => true
  | none, some _ => false
  | some _, none => true
  | some x, some y => x ≤ y

/-- ORDER BY created_at DESC. -/
def createdAtDesc (a b : Task) : Bool :=
  b.createdAt ≤ a.createdAt

/-- GormTaskRepository.List: filter, count, order, paginate. -/
def listRepo (db : DB) (filter : TaskFilter) : List Task × Nat :=
  if filter.organizationIDs = [] then ([], 0)
  else
    let matched := db.tasks.filter (matchesFilter db filter)
    let total := matched.length
    let sorted := if filter.sortByDueDate then sortTasks dueDateLe matched
                  else sortTasks createdAtDesc matched
    let paged :=
      if filter.page > 0 ∧ filter.pageSize > 0 then
        (sorted.drop ((filter.page - 1) * filter.pageSize).toNat).take filter.pageSize.toNat
      else sorted
    (paged, total)

/-- ListTasks: resolve accessible organizations, short-circuit on an empty
set, then delegate to the repository. -/
def ListTasks (db : DB) (now : Time) (input : ListTasksInput) :
    Except SvcError (List Task × Nat) :=
  match resolveAccessibleOrganizationIDs db input.userID input.organizationID with
  | .error e => .error e
  | .ok orgIDs =>
    if orgIDs = [] then .ok ([], 0)
    else
      let startOfDay := 86400 * (now / 86400)
      let filter : TaskFilter :=
        { organizationIDs := orgIDs
          status := input.status
          creatorID := none
          assignedUserID := if input.assignedToMe then some input.userID else none
          dueDateFrom := if input.dueToday then some startOfDay else none
          dueDateTo := if input.dueToday then some (startOfDay + 86400) else none
          sortByDueDate := input.sortByDueDate
          page := input.page
          pageSize := input.pageSize }
      .ok (listRepo db filter)

/-- CreateTask: validate the title, check membership, default the status,
persist the task, self-assign the creator, reload the task. -/
def CreateTask (db : DB) (now : Time) (input : CreateTaskInput) :
    Except SvcError (DB × Task) :=
  if input.title = "" then .error .titleRequired
  else
    match ensureOrganizationMember db input.organizationID input.creatorID with
    | .error e => .error e
    | .ok _ =>
      let status := if input.status = "" then TaskStatusTodo else input.status
      let task : Task :=
        { id := 0, title := input.title, description := input.description
          status := status, dueDate := input.dueDate
          creatorID := input.creatorID, organizationID := input.organizationID
          createdAt := now, deleted := false }
      let db1 := (GormTaskRepository.Create db task).1
      let created := (GormTaskRepository.Create db task).2
      let db2 := GormTaskRepository.AssignUsers db1 created.id [input.creatorID]
      match GormTaskRepository.FindByID db2 created.id with
      | some t => .ok (db2, t)
      | none => .error (.wrapped "failed to reload created task")

/-- AssignUsers: creator-gated, de-duplicated, all targets must be existing
users and members of the organization the task belongs to. -/
def AssignUsers (db : DB) (input : AssignUsersInput) : Except SvcError DB :=
  if input.userIDs = [] then .error .noUserIDsProvided
  else
    match GormTaskRepository.FindByID db input.taskID with
    | none => .error .taskNotFound
    | some task =>
      if task.creatorID ≠ input.actorID then .error .notTaskCreator
      else
        let userIDs := uniqueUint64 input.userIDs
        let count := GormTaskRepository.CountUsersByIDs db userIDs task.organizationID
        if count ≠ userIDs.length then .error .invalidTaskAssignee
        else .ok (GormTaskRepository.AssignUsers db task.id userIDs)

/-- UnassignUsers: creator-gated, de-duplicated, no membership requirement. -/
def UnassignUsers (db : DB) (taskID actorID : Nat) (userIDs : List Nat) :
    Except SvcError DB :=
  if userIDs = [] then .error .noUserIDsProvided
  else
    match GormTaskRepository.FindByID db taskID with
    | none => .error .taskNotFound
    | some task =>
      if task.creatorID ≠ actorID then .error .notTaskCreator
      else
        let uniqueIDs := uniqueUint64 userIDs
        .ok (GormTaskRepository.UnassignUsers db taskID uniqueIDs)

/-- ToggleTaskStatus: permitted for the creator or any live assignee; flips
DONE to TODO and anything else to DONE, then saves. -/
def ToggleTaskStatus (db : DB) (taskID actorID : Nat) : Except SvcError (DB × Task) :=
  match GormTaskRepository.FindByID db taskID with
  | none => .error .taskNotFound
  | some task =>
    if task.creatorID ≠ actorID ∧
       ¬ db.assignments.any (fun r =>
           r.taskID = task.id ∧ r.userID = actorID ∧ r.deleted = false) then
      .error .taskPermissionDenied
    else
      let toggled :=
        { task with status :=
            if task.status = TaskStatusDone then TaskStatusTodo else TaskStatusDone }
      .ok (GormTaskRepository.Update db toggled, toggled)

/-- Per-candidate sanitization step of GenerateTasks: drop blank titles,
null a due date strictly before the cutoff (now minus 24 hours). -/
def sanitizeCandidate (cutoff : Time) (t : GeneratedTask) : Option GeneratedTask :=
  if trimSpace t.title = "" then none
  else
    some { t with dueDate :=
      match t.dueDate with
      | some d => if d < cutoff then none else some d
      | none => none }

/-- GenerateTasks: the AI extraction sanitizer.  `configured` models whether
an AI backend is wired; `aiResult` is the outcome of the external extractor
call at time `now`. -/
def GenerateTasks (configured : Bool)
    (aiResult : Except String (List GeneratedTask)) (now : Time) :
    Except SvcError (List GeneratedTask) :=
  if configured = false then .error .aiServiceNotConfigured
  else
    match aiResult with
    | .error e => .error (.wrapped e)
    | .ok aiTasks =>
      if aiTasks.length = 0 then .error .aiNoTasksGenerated
      else if aiTasks.length > MaxAIGeneratedTasks then .error .aiTooManyTasks
      else
        let cutoff := now - 24 * 3600
        let validTasks := aiTasks.filterMap (sanitizeCandidate cutoff)
        if validTasks.length = 0 then .error .aiNoValidTasks
        else .ok validTasks

end TaskService

namespace OrganizationService

/-- services.CreateOrganizationInput -/
structure CreateOrganizationInput where
  name : String
  ownerID : Nat
deriving DecidableEq, Repr

/-- CreateOrganization: reject blank (after trimming) names, generate an
invite code (`genCode = none` models generator failure), persist the
organization, then add the owner membership. -/
def CreateOrganization (db : DB) (now : Time) (genCode : Option String)
    (input : CreateOrganizationInput) : Except SvcError (DB × Organization) :=
  if trimSpace input.name = "" then .error .invalidOrganizationName
  else
    match genCode with
    | none => .error .inviteCodeGenerationFailed
    | some code =>
      let org : Organization := { id := 0, name := input.name, inviteCode := code, deleted := false }
      let db1 := (GormOrganizationRepository.Create db org).1
      let created := (GormOrganizationRepository.Create db org).2
      let member : OrganizationMember :=
        { organizationID := created.id, userID := input.ownerID
          role := RoleOwner, joinedAt := now }
      .ok (GormOrganizationRepository.AddMember db1 member, created)

/-- RemoveMember: self-removal is rejected first, then the target membership
row must exist, then it is deleted. -/
def RemoveMember (db : DB) (orgID actorID targetID : Nat) : Except SvcError DB :=
  if targetID = actorID then .error .cannotRemoveYourself
  else
    match GormOrganizationRepository.FindMember db orgID targetID with
    | none => .error .organizationMemberNotFound
    | some _ => .ok (GormOrganizationRepository.RemoveMember db orgID targetID)

end OrganizationService

namespace AuthService

/-- services.SignupInput -/
structure SignupInput where
  username : String
  password : String
deriving DecidableEq, Repr

/-- Signup: validate the username and password, reject taken usernames, hash
the password (`hash = none` models bcrypt failure), build the personal
organization named "<username>の組織" (`genCode = none` models invite-code
generator failure), then create user, organization and owner membership in
one transaction; on a transaction error the original `DB` is returned. -/
def Signup (db : DB) (now : Time) (hash : String → Option String)
    (genCode : Option String) (failUser failOrg failMember : Bool)
    (input : SignupInput) : DB × Except SvcError User :=
  let username := trimSpace input.username
  if username = "" then (db, .error .usernameRequired)
  else if input.password.length < MinPasswordLength then (db, .error .passwordTooShort)
  else
    match GormUserRepository.FindByUsername db username with
    | some _ => (db, .error .usernameTaken)
    | none =>
      match hash input.password with
      | none => (db, .error .failedToHashPassword)
      | some hashedPassword =>
        let user : User :=
          { id := 0, username := username, passwordHash := hashedPassword, deleted := false }
        match genCode with
        | none => (db, .error .failedToCreateOrg)
        | some inviteCode =>
          let org : Organization :=
            { id := 0, name := username ++ "の組織", inviteCode := inviteCode, deleted := false }
          let member : OrganizationMember :=
            { organizationID := 0, userID := 0, role := RoleOwner, joinedAt := now }
          match GormUserRepository.CreateWithPersonalOrganization
              failUser failOrg failMember db user org member with
          | .error .createUser => (db, .error .failedToCreateUser)
          | .error .createOrganization => (db, .error .failedToCreateOrg)
          | .error .createOrganizationMember => (db, .error .failedToAddMember)
          | .ok (db1, u) => (db1, .ok u)

end AuthService

/-- A membership row for (orgID, userID) exists. -/
def DB.HasMember (db : DB) (orgID userID : Nat) : Prop :=
  GormOrganizationRepository.FindMember db orgID userID ≠ none

instance (db : DB) (orgID userID : Nat) : Decidable (db.HasMember orgID userID) := by
  unfold DB.HasMember; infer_instance

/-- Number of live assignment rows for (taskID, userID). -/
def DB.liveAssignCount (db : DB) (taskID userID : Nat) : Nat :=
  (db.assignments.filter (fun r =>
      r.taskID = taskID ∧ r.userID = userID ∧ r.deleted = false)).length

/-- Number of assignment rows (live or soft-deleted) for (taskID, userID). -/
def DB.totalAssignCount (db : DB) (taskID userID : Nat) : Nat :=
  (db.assignments.filter (fun r => r.taskID = taskID ∧ r.userID = userID)).length

/-- A live user row with the given id exists. -/
def DB.HasUser (db : DB) (userID : Nat) : Prop :=
  ∃ u ∈ db.users, u.deleted = false ∧ u.id = userID

instance (db : DB) (userID : Nat) : Decidable (db.HasUser userID) := by
  unfold DB.HasUser; infer_instance

/-- Well-formedness of the database: primary keys are unique, autoincrement
counters dominate every existing id, and assignment rows reference task ids
below the counter. -/
def DB.WF (db : DB) : Prop :=
  (db.users.map (fun u => u.id)).Nodup ∧
  (∀ u ∈ db.users, u.id < db.nextUserID) ∧
  (db.orgs.map (fun o => o.id)).Nodup ∧
  (∀ o ∈ db.orgs, o.id < db.nextOrgID) ∧
  (db.tasks.map (fun t => t.id)).Nodup ∧
  (∀ t ∈ db.tasks, t.id < db.nextTaskID) ∧
  (db.members.map (fun m => (m.organizationID, m.userID))).Nodup ∧
  (db.assignments.map (fun r => (r.taskID, r.userID))).Nodup ∧
  (∀ r ∈ db.assignments, r.taskID < db.nextTaskID)

instance (db : DB) : Decidable db.WF := by
  unfold DB.WF; infer_instance

/-! ### A concrete database for the witness theorems -/

/-- Concrete state: alice (user 1) owns organization 1 and created task 1
(self-assigned); bob (user 2) exists but is not a member of organization 1. -/
def dbEx : DB :=
  { users := [{ id := 1, username := "alice", passwordHash := "h1", deleted := false },
              { id := 2, username := "bob", passwordHash := "h2", deleted := false }]
    orgs := [{ id := 1, name := "org one", inviteCode := "c1", deleted := false }]
    members := [{ organizationID := 1, userID := 1, role := "owner", joinedAt := 0 }]
    tasks := [{ id := 1, title := "task one", description := "", status := "TODO",
                dueDate := none, creatorID := 1, organizationID := 1, createdAt := 0,
                deleted := false }]
    assignments := [{ taskID := 1, userID := 1, deleted := false }]
    nextUserID := 3
    nextOrgID := 2
    nextTaskID := 2 }

/-- The concrete state `dbEx` after bob (user 2) joined organization 1. -/
def dbExB : DB :=
  { dbEx with members := dbEx.members ++
      [{ organizationID := 1, userID := 2, role := "member", joinedAt := 3 }] }

/-- The task row CreateTask persists and reloads: the built record with the
autoincrement id assigned. -/
def createdTask (db : DB) (now : Time) (input : TaskService.CreateTaskInput) : Task :=
  { id := db.nextTaskID, title := input.title, description := input.description
    status := if input.status = "" then TaskStatusTodo else input.status
    dueDate := input.dueDate, creatorID := input.creatorID
    organizationID := input.organizationID, createdAt := now, deleted := false }

/-- The database state a successful CreateTask leaves behind: the new task
row appended and the creator self-assigned. -/
def createTaskResultDB (db : DB) (now : Time) (input : TaskService.CreateTaskInput) : DB :=
  GormTaskRepository.AssignUsers
    (GormTaskRepository.Create db
      { id := 0, title := input.title, description := input.description
        status := if input.status = "" then TaskStatusTodo else input.status
        dueDate := input.dueDate, creatorID := input.creatorID
        organizationID := input.organizationID, createdAt := now, deleted := false }).1
    (GormTaskRepository.Create db
      { id := 0, title := input.title, description := input.description
        status := if input.status = "" then TaskStatusTodo else input.status
        dueDate := input.dueDate, creatorID := input.creatorID
        organizationID := input.organizationID, createdAt := now, deleted := false }).2.id
    [input.creatorID]

/-! ### Generic list lemmas -/

theorem find?_append_of_none {α : Type} (p : α → Bool) :
    ∀ l1 l2 : List α, l1.find? p = none → (l1 ++ l2).find? p = l2.find? p
  | [], _, _ => rfl
  | a :: l1, l2, h => by
    by_cases hp : p a = true
    · rw [List.find?_cons_of_pos _ hp] at h
      exact absurd h (by simp)
    · rw [List.find?_cons_of_neg _ (by simpa using hp)] at h
      rw [List.cons_append, List.find?_cons_of_neg _ (by simpa using hp)]
      exact find?_append_of_none p l1 l2 h

theorem filter_key_length_le_one {α κ : Type} [DecidableEq κ] (key : α → κ) (k : κ) :
    ∀ l : List α, (l.map key).Nodup → (l.filter (fun x => key x = k)).length ≤ 1 := by
  intro l
  induction l with
  | nil => intro _; simp
  | cons a l ih =>
    intro hnd
    rw [List.map_cons, List.nodup_cons] at hnd
    by_cases ha : key a = k
    · have hnil : l.filter (fun x => key x = k) = [] := by
        apply List.filter_eq_nil_iff.mpr
        intro b hb hkb
        exact hnd.1 (by
          subst ha
          rw [decide_eq_true_eq] at hkb
          exact hkb ▸ List.mem_map_of_mem key hb)
      simp [List.filter_cons, ha, hnil]
    · simpa [List.filter_cons, ha] using ih hnd.2

theorem filter_key_length_eq_one {α κ : Type} [DecidableEq κ] (key : α → κ) (k : κ) :
    ∀ l : List α, (l.map key).Nodup → (∃ x ∈ l, key x = k) →
      (l.filter (fun x => key x = k)).length = 1 := by
  intro l
  induction l with
  | nil => intro _ hex; simp at hex
  | cons a l ih =>
    intro hnd hex
    rw [List.map_cons, List.nodup_cons] at hnd
    by_cases ha : key a = k
    · have hnil : l.filter (fun x => key x = k) = [] := by
        apply List.filter_eq_nil_iff.mpr
        intro b hb hkb
        exact hnd.1 (by
          subst ha
          rw [decide_eq_true_eq] at hkb
          exact hkb ▸ List.mem_map_of_mem key hb)
      simp [List.filter_cons, ha, hnil]
    · obtain ⟨x, hx, hkx⟩ := hex
      rcases List.mem_cons.mp hx with h | h
      · exact absurd (h ▸ hkx) ha
      · simpa [List.filter_cons, ha] using ih hnd.2 ⟨x, h, hkx⟩

theorem length_filter_disjoint_or {α : Type} (p q r : α → Bool)
    (hpq : ∀ x, r x = true ↔ (p x = true ∨ q x = true))
    (hdis : ∀ x, ¬(p x = true ∧ q x = true)) :
    ∀ l : List α, (l.filter r).length = (l.filter p).length + (l.filter q).length := by
  intro l
  induction l with
  | nil => simp
  | cons a l ih =>
    cases hr : r a with
    | true =>
      rcases (hpq a).mp hr with hp | hq
      · have hq : q a = false := by
          cases hq' : q a
          · rfl
          · exact absurd ⟨hp, hq'⟩ (hdis a)
        simp [List.filter_cons, hr, hp, hq, ih]
        omega
      · have hp : p a = false := by
          cases hp' : p a
          · rfl
          · exact absurd ⟨hp', hq⟩ (hdis a)
        simp [List.filter_cons, hr, hp, hq, ih]
        omega
    | false =>
      have hp : p a = false := by
        cases hp' : p a
        · rfl
        · have hcon := (hpq a).mpr (Or.inl hp')
          rw [hr] at hcon
          cases hcon
      have hq : q a = false := by
        cases hq' : q a
        · rfl
        · have hcon := (hpq a).mpr (Or.inr hq')
          rw [hr] at hcon
          cases hcon
      simp [List.filter_cons, hr, hp, hq, ih]

/-! ### uniqueUint64 lemmas -/

theorem uniqueUint64_go_mem (v : Nat) :
    ∀ (l acc : List Nat),
      (v ∈ l.foldl (fun acc v => if v ∈ acc then acc else acc ++ [v]) acc ↔ v ∈ acc ∨ v ∈ l)
  | [], acc => by simp
  | x :: l, acc => by
    rw [List.foldl_cons]
    by_cases hx : x ∈ acc
    · rw [if_pos hx, uniqueUint64_go_mem v l acc]
      constructor
      · rintro (h | h)
        · exact Or.inl h
        · exact Or.inr (List.mem_cons_of_mem _ h)
      · rintro (h | h)
        · exact Or.inl h
        · rcases List.mem_cons.mp h with h | h
          · exact Or.inl (h ▸ hx)
          · exact Or.inr h
    · rw [if_neg hx, uniqueUint64_go_mem v l (acc ++ [x])]
      simp [or_assoc]

theorem mem_uniqueUint64 (v : Nat) (l : List Nat) : v ∈ uniqueUint64 l ↔ v ∈ l := by
  unfold uniqueUint64
  rw [uniqueUint64_go_mem v l []]
  simp

theorem uniqueUint64_go_nodup :
    ∀ (l acc : List Nat), acc.Nodup →
      (l.foldl (fun acc v => if v ∈ acc then acc else acc ++ [v]) acc).Nodup
  | [], _, h => h
  | x :: l, acc, h => by
    rw [List.foldl_cons]
    by_cases hx : x ∈ acc
    · rw [if_pos hx]; exact uniqueUint64_go_nodup l acc h
    · rw [if_neg hx]
      exact uniqueUint64_go_nodup l (acc ++ [x])
        (by simp [List.nodup_append, h, hx, List.disjoint_singleton])

theorem nodup_uniqueUint64 (l : List Nat) : (uniqueUint64 l).Nodup :=
  uniqueUint64_go_nodup l [] List.nodup_nil

/-! ### Bridging lemmas between Prop-level predicates and the Bool scans -/

theorem hasMember_iff_any (db : DB) (o u : Nat) :
    db.HasMember o u ↔ db.members.any (fun m => m.organizationID = o ∧ m.userID = u) = true := by
  unfold DB.HasMember GormOrganizationRepository.FindMember
  rw [Option.ne_none_iff_isSome, List.find?_isSome, List.any_eq_true]

theorem hasMember_iff_exists (db : DB) (o u : Nat) :
    db.HasMember o u ↔ ∃ m ∈ db.members, m.organizationID = o ∧ m.userID = u := by
  rw [hasMember_iff_any, List.any_eq_true]
  simp

theorem hasUser_iff_any (db : DB) (u : Nat) :
    db.HasUser u ↔ db.users.any (fun x => x.deleted = false ∧ x.id = u) = true := by
  unfold DB.HasUser
  rw [List.any_eq_true]
  simp

/-! ### C7: GenerateTasks staleness filter -/

/-- C7: for extractor output within bounds, GenerateTasks returns exactly the
sanitized candidates; a candidate whose title is blank after trimming is
dropped; a candidate with a non-blank title and a set due date has the due
date nulled exactly when it lies strictly more than 24 hours before `now`,
and is returned unchanged otherwise. -/
theorem generateTasks_staleness (now : Time) (aiTasks : List GeneratedTask)
    (h1 : aiTasks ≠ []) (h2 : aiTasks.length ≤ MaxAIGeneratedTasks)
    (h3 : aiTasks.filterMap (TaskService.sanitizeCandidate (now - 24 * 3600)) ≠ []) :
    TaskService.GenerateTasks true (.ok aiTasks) now =
      .ok (aiTasks.filterMap (TaskService.sanitizeCandidate (now - 24 * 3600))) ∧
    (∀ t : GeneratedTask, trimSpace t.title = "" →
      TaskService.sanitizeCandidate (now - 24 * 3600) t = none) ∧
    (∀ (t : GeneratedTask) (d : Time), trimSpace t.title ≠ "" → t.dueDate = some d →
      d < now - 24 * 3600 →
      TaskService.sanitizeCandidate (now - 24 * 3600) t = some { t with dueDate := none }) ∧
    (∀ (t : GeneratedTask) (d : Time), trimSpace t.title ≠ "" → t.dueDate = some d →
      ¬ d < now - 24 * 3600 →
      TaskService.sanitizeCandidate (now - 24 * 3600) t = some t) := by
  refine ⟨?_, ?_, ?_, ?_⟩
  · have h1t : ¬ aiTasks.length = 0 := fun h => h1 (List.eq_nil_of_length_eq_zero h)
    have h3t : ¬ (aiTasks.filterMap
        (TaskService.sanitizeCandidate (now - 24 * 3600))).length = 0 :=
      fun h => h3 (List.eq_nil_of_length_eq_zero h)
    simp only [TaskService.GenerateTasks, if_neg h1t, if_neg (not_lt.mpr h2), if_neg h3t]
    simp
  · intro t ht
    unfold TaskService.sanitizeCandidate
    rw [if_pos ht]
  · intro t d ht hd hlt
    obtain ⟨title, desc, due⟩ := t
    simp only at hd
    subst hd
    unfold TaskService.sanitizeCandidate
    rw [if_neg ht]
    show (some { title := title, description := desc, dueDate :=
          if d < now - 24 * 3600 then none else some d } : Option GeneratedTask) =
      some { title := title, description := desc, dueDate := none }
    rw [if_pos hlt]
  · intro t d ht hd hge
    obtain ⟨title, desc, due⟩ := t
    simp only at hd
    subst hd
    unfold TaskService.sanitizeCandidate
    rw [if_neg ht]
    show (some { title := title, description := desc, dueDate :=
          if d < now - 24 * 3600 then none else some d } : Option GeneratedTask) =
      some { title := title, description := desc, dueDate := some d }
    rw [if_neg hge]

/-- C7 witness: at time 0, a candidate due 25 hours in the past (-90000s) is
returned with its due date nulled, one due 23 hours in the past (-82800s) is
unchanged, and a blank-titled candidate is dropped. -/
theorem generateTasks_staleness_check :
    TaskService.GenerateTasks true
        (.ok [{ title := "a", description := "", dueDate := some (-90000) },
              { title := " ", description := "", dueDate := some 0 },
              { title := "b", description := "", dueDate := some (-82800) }]) 0 =
      .ok [{ title := "a", description := "", dueDate := none },
           { title := "b", description := "", dueDate := some (-82800) }] ∧
    TaskService.sanitizeCandidate (0 - 24 * 3600)
        { title := " ", description := "", dueDate := some 0 } = none ∧
    TaskService.sanitizeCandidate (0 - 24 * 3600)
        { title := "a", description := "", dueDate := some (-90000) } =
      some { title := "a", description := "", dueDate := none } ∧
    TaskService.sanitizeCandidate (0 - 24 * 3600)
        { title := "b", description := "", dueDate := some (-82800) } =
      some { title := "b", description := "", dueDate := some (-82800) } := by
  have h := generateTasks_staleness 0
    [{ title := "a", description := "", dueDate := some (-90000) },
     { title := " ", description := "", dueDate := some 0 },
     { title := "b", description := "", dueDate := some (-82800) }]
    (by decide) (by decide) (by decide)
  refine ⟨h.1.trans (congrArg Except.ok (by decide)), h.2.1 _ (by decide), ?_, ?_⟩
  · exact h.2.2.1 _ (-90000) (by decide) rfl (by decide)
  · exact h.2.2.2 _ (-82800) (by decide) rfl (by decide)

/-! ### C9: RemoveMember -/

/-- C9: RemoveMember rejects self-removal first (even when the target has no
membership row), then fails OrganizationMemberNotFound when no membership
row (orgID, targetID) exists, and otherwise deletes exactly that membership
row, leaving every other row and table untouched. -/
theorem removeMember_spec (db : DB) (o a t : Nat) (hwf : db.WF) :
    (a = t → OrganizationService.RemoveMember db o a t = .error .cannotRemoveYourself) ∧
    (a ≠ t → ¬ db.HasMember o t →
      OrganizationService.RemoveMember db o a t = .error .organizationMemberNotFound) ∧
    (a ≠ t → db.HasMember o t →
      ∃ db2, OrganizationService.RemoveMember db o a t = .ok db2 ∧
        (∀ m, m ∈ db2.members ↔
          m ∈ db.members ∧ ¬(m.organizationID = o ∧ m.userID = t)) ∧
        db2.members.length + 1 = db.members.length ∧
        db2.users = db.users ∧ db2.orgs = db.orgs ∧
        db2.tasks = db.tasks ∧ db2.assignments = db.assignments) := by
  refine ⟨?_, ?_, ?_⟩
  · intro h
    unfold OrganizationService.RemoveMember
    rw [if_pos h.symm]
  · intro hne hnm
    unfold OrganizationService.RemoveMember
    rw [if_neg (fun hh => hne hh.symm)]
    rw [not_ne_iff.mp hnm]
  · intro hne hm
    obtain ⟨mrow, hrow⟩ := Option.isSome_iff_exists.mp (Option.ne_none_iff_isSome.mp hm)
    unfold OrganizationService.RemoveMember
    rw [if_neg (fun hh => hne hh.symm), hrow]
    refine ⟨_, rfl, ?_, ?_, rfl, rfl, rfl, rfl⟩
    · intro m
      simp only [GormOrganizationRepository.RemoveMember, List.mem_filter,
        decide_eq_true_eq]
    · have hone : (db.members.filter
          (fun m => (m.organizationID, m.userID) = (o, t))).length = 1 := by
        apply filter_key_length_eq_one (fun m => (m.organizationID, m.userID)) (o, t)
          db.members hwf.2.2.2.2.2.2.1
        obtain ⟨m, hmem, hprop⟩ := (hasMember_iff_exists db o t).mp hm
        exact ⟨m, hmem, by simp [hprop.1, hprop.2]⟩
      have hcongr : db.members.filter
            (fun m => (m.organizationID, m.userID) = (o, t)) =
          db.members.filter
            (fun m : OrganizationMember => decide (m.organizationID = o ∧ m.userID = t)) := by
        apply List.filter_congr
        intro m _
        simp [Prod.ext_iff]
      rw [hcongr] at hone
      have hsplit := (List.filter_append_perm
        (fun m : OrganizationMember => decide (m.organizationID = o ∧ m.userID = t))
        db.members).length_eq
      rw [List.length_append] at hsplit
      have hcongr2 : db.members.filter
            (fun m : OrganizationMember => ¬(m.organizationID = o ∧ m.userID = t)) =
          db.members.filter
            (fun m : OrganizationMember =>
              !(decide (m.organizationID = o ∧ m.userID = t))) := by
        apply List.filter_congr
        intro m _
        simp
      simp only [GormOrganizationRepository.RemoveMember]
      rw [hcongr2]
      omega

/-- C9 witness: self-removal of a non-member fails CannotRemoveYourself,
removing an absent member fails OrganizationMemberNotFound, and removing
bob after he joined deletes exactly his membership row. -/
theorem removeMember_check :
    OrganizationService.RemoveMember dbEx 1 9 9 = .error .cannotRemoveYourself ∧
    OrganizationService.RemoveMember dbEx 1 1 2 = .error .organizationMemberNotFound ∧
    (∃ db2, OrganizationService.RemoveMember dbExB 1 1 2 = .ok db2 ∧
      (∀ m, m ∈ db2.members ↔
        m ∈ dbExB.members ∧ ¬(m.organizationID = 1 ∧ m.userID = 2)) ∧
      db2.members.length + 1 = dbExB.members.length ∧
      db2.users = dbExB.users ∧ db2.orgs = dbExB.orgs ∧
      db2.tasks = dbExB.tasks ∧ db2.assignments = dbExB.assignments) := by
  refine ⟨(removeMember_spec dbEx 1 9 9 (by decide)).1 rfl,
    (removeMember_spec dbEx 1 1 2 (by decide)).2.1 (by decide) (by decide), ?_⟩
  exact (removeMember_spec dbExB 1 1 2 (by decide)).2.2 (by decide) (by decide)

/-! ### C10: CreateTask title check versus organization-name trimming -/

theorem find?_fresh_append (l : List Task) (nid : Nat) (c : Task)
    (hlt : ∀ t ∈ l, t.id < nid) (hc : c.id = nid) (hdel : c.deleted = false) :
    (l ++ [c]).find? (fun x => x.id = nid ∧ x.deleted = false) = some c := by
  rw [find?_append_of_none]
  · exact List.find?_cons_of_pos _ (by simp [hc, hdel])
  · apply List.find?_eq_none.mpr
    intro x hx hcon
    rw [decide_eq_true_eq] at hcon
    exact absurd hcon.1 (Nat.ne_of_lt (hlt x hx))

/-- Executing CreateTask on the success path: fresh task ids, a non-empty
title and an existing membership row produce the created task and the
self-assignment. -/
theorem createTask_run (db : DB) (now : Time) (input : TaskService.CreateTaskInput)
    (hfresh : ∀ x ∈ db.tasks, x.id < db.nextTaskID)
    (hti : input.title ≠ "")
    (hmem : db.HasMember input.organizationID input.creatorID) :
    TaskService.CreateTask db now input =
      .ok (createTaskResultDB db now input, createdTask db now input) := by
  obtain ⟨mrow, hfm⟩ := Option.isSome_iff_exists.mp (Option.ne_none_iff_isSome.mp hmem)
  have hens : TaskService.ensureOrganizationMember db input.organizationID
      input.creatorID = .ok () := by
    unfold TaskService.ensureOrganizationMember
    rw [hfm]
  simp only [TaskService.CreateTask, if_neg hti, hens]
  split
  case h_1 t heq =>
    have h2 : (db.tasks ++ [createdTask db now input]).find?
        (fun x => x.id = db.nextTaskID ∧ x.deleted = false) =
        some (createdTask db now input) :=
      find?_fresh_append db.tasks db.nextTaskID (createdTask db now input) hfresh rfl rfl
    have heq2 : (db.tasks ++ [createdTask db now input]).find?
        (fun x => x.id = db.nextTaskID ∧ x.deleted = false) = some t := heq
    rw [← Option.some.inj (h2.symm.trans heq2)]
    rfl
  case h_2 heq =>
    exfalso
    have h2 : (db.tasks ++ [createdTask db now input]).find?
        (fun x => x.id = db.nextTaskID ∧ x.deleted = false) =
        some (createdTask db now input) :=
      find?_fresh_append db.tasks db.nextTaskID (createdTask db now input) hfresh rfl rfl
    have heq2 : (db.tasks ++ [createdTask db now input]).find?
        (fun x => x.id = db.nextTaskID ∧ x.deleted = false) = none := heq
    exact absurd (h2.symm.trans heq2) (by simp)

/-- C10: CreateTask fails TitleRequired exactly when the title is the empty
string; a whitespace-only title passes validation and the stored task keeps
it verbatim; by contrast CreateOrganization trims the name first and rejects
a whitespace-only name as InvalidOrganizationName. -/
theorem createTask_title_exactness (db : DB) (now : Time)
    (input : TaskService.CreateTaskInput) (odb : DB) (onow : Time)
    (ocode : Option String) (oinput : OrganizationService.CreateOrganizationInput) :
    (TaskService.CreateTask db now input = .error .titleRequired ↔ input.title = "") ∧
    (db.WF → input.title ≠ "" → db.HasMember input.organizationID input.creatorID →
      ∃ db2 t, TaskService.CreateTask db now input = .ok (db2, t) ∧
        t.title = input.title) ∧
    (trimSpace oinput.name = "" →
      OrganizationService.CreateOrganization odb onow ocode oinput =
        .error .invalidOrganizationName) := by
  refine ⟨⟨?_, ?_⟩, ?_, ?_⟩
  · intro h
    by_cases hti : input.title = ""
    · exact hti
    · exfalso
      cases hens : TaskService.ensureOrganizationMember db input.organizationID
          input.creatorID with
      | error e =>
        have he : e = SvcError.notOrganizationMember := by
          unfold TaskService.ensureOrganizationMember at hens
          cases hfm : GormOrganizationRepository.FindMember db input.organizationID
              input.creatorID with
          | none => rw [hfm] at hens; exact (Except.error.inj hens).symm
          | some m => rw [hfm] at hens; cases hens
        subst he
        simp only [TaskService.CreateTask, if_neg hti, hens] at h
        cases h
      | ok u =>
        simp only [TaskService.CreateTask, if_neg hti, hens] at h
        split at h <;> simp_all
  · intro h
    unfold TaskService.CreateTask
    rw [if_pos h]
  · intro hwf hti hmem
    exact ⟨createTaskResultDB db now input, createdTask db now input,
      createTask_run db now input hwf.2.2.2.2.2.1 hti hmem, rfl⟩
  · intro hname
    unfold OrganizationService.CreateOrganization
    rw [if_pos hname]

/-- C10 witness: in the concrete state, a CreateTask call with an empty title
fails TitleRequired, one with the title " " succeeds and stores " " verbatim,
and CreateOrganization with the name " " fails InvalidOrganizationName. -/
theorem createTask_title_check :
    TaskService.CreateTask dbEx 5
        { title := "", description := "", status := "", dueDate := none
          organizationID := 1, creatorID := 1 } = .error .titleRequired ∧
    (∃ db2 t, TaskService.CreateTask dbEx 5
        { title := " ", description := "", status := "", dueDate := none
          organizationID := 1, creatorID := 1 } = .ok (db2, t) ∧
      t.title = " ") ∧
    OrganizationService.CreateOrganization dbEx 0 (some "z")
        { name := " ", ownerID := 1 } = .error .invalidOrganizationName := by
  refine ⟨?_, ?_, ?_⟩
  · exact (createTask_title_exactness dbEx 5
      { title := "", description := "", status := "", dueDate := none
        organizationID := 1, creatorID := 1 } dbEx 0 (some "z")
      { name := " ", ownerID := 1 }).1.mpr rfl
  · exact (createTask_title_exactness dbEx 5
      { title := " ", description := "", status := "", dueDate := none
        organizationID := 1, creatorID := 1 } dbEx 0 (some "z")
      { name := " ", ownerID := 1 }).2.1 (by decide) (by decide) (by decide)
  · exact (createTask_title_exactness dbEx 5
      { title := " ", description := "", status := "", dueDate := none
        organizationID := 1, creatorID := 1 } dbEx 0 (some "z")
      { name := " ", ownerID := 1 }).2.2 (by decide)

/-! ### C1: the membership gate -/

/-- C1: when no membership row exists for (o, u), CreateTask targeting o by u
(with a valid title) and ListTasks explicitly scoped to o by u both fail
NotOrganizationMember; when a membership row exists, the same calls never
fail NotOrganizationMember. -/
theorem membership_gate (db : DB) (now : Time) (o u : Nat) :
    (¬ db.HasMember o u →
      (∀ input : TaskService.CreateTaskInput, input.organizationID = o →
        input.creatorID = u → input.title ≠ "" →
        TaskService.CreateTask db now input = .error .notOrganizationMember) ∧
      (∀ input : TaskService.ListTasksInput, input.organizationID = some o →
        input.userID = u →
        TaskService.ListTasks db now input = .error .notOrganizationMember)) ∧
    (db.HasMember o u →
      (∀ input : TaskService.CreateTaskInput, input.organizationID = o →
        input.creatorID = u →
        TaskService.CreateTask db now input ≠ .error .notOrganizationMember) ∧
      (∀ input : TaskService.ListTasksInput, input.organizationID = some o →
        input.userID = u →
        TaskService.ListTasks db now input ≠ .error .notOrganizationMember)) := by
  constructor
  · intro hno
    have hfm : GormOrganizationRepository.FindMember db o u = none := not_ne_iff.mp hno
    have hens : TaskService.ensureOrganizationMember db o u =
        .error .notOrganizationMember := by
      unfold TaskService.ensureOrganizationMember
      rw [hfm]
    constructor
    · intro input ho hu hti
      subst ho
      subst hu
      simp only [TaskService.CreateTask, if_neg hti, hens]
    · intro input ho hu
      subst hu
      have hres : TaskService.resolveAccessibleOrganizationIDs db input.userID
          input.organizationID = .error .notOrganizationMember := by
        simp only [TaskService.resolveAccessibleOrganizationIDs, ho, hens]
      simp only [TaskService.ListTasks, hres]
  · intro hyes
    obtain ⟨mrow, hfm⟩ := Option.isSome_iff_exists.mp (Option.ne_none_iff_isSome.mp hyes)
    have hens : TaskService.ensureOrganizationMember db o u = .ok () := by
      unfold TaskService.ensureOrganizationMember
      rw [hfm]
    constructor
    · intro input ho hu
      subst ho
      subst hu
      by_cases hti : input.title = ""
      · simp only [TaskService.CreateTask, if_pos hti]
        simp
      · simp only [TaskService.CreateTask, if_neg hti, hens]
        split <;> simp
    · intro input ho hu
      subst hu
      have hres : TaskService.resolveAccessibleOrganizationIDs db input.userID
          input.organizationID = .ok [o] := by
        simp only [TaskService.resolveAccessibleOrganizationIDs, ho, hens]
      simp only [TaskService.ListTasks, hres]
      split <;> simp

/-- C1 witness: bob (user 2, not a member of organization 1) is rejected with
NotOrganizationMember by CreateTask and an organization-scoped ListTasks,
while alice (user 1, member) is not. -/
theorem membership_gate_check :
    TaskService.CreateTask dbEx 0
        { title := "x", description := "", status := "", dueDate := none
          organizationID := 1, creatorID := 2 } = .error .notOrganizationMember ∧
    TaskService.ListTasks dbEx 0
        { userID := 2, organizationID := some 1, assignedToMe := false
          dueToday := false, status := none, sortByDueDate := false
          page := 0, pageSize := 0 } = .error .notOrganizationMember ∧
    TaskService.CreateTask dbEx 0
        { title := "x", description := "", status := "", dueDate := none
          organizationID := 1, creatorID := 1 } ≠ .error .notOrganizationMember ∧
    TaskService.ListTasks dbEx 0
        { userID := 1, organizationID := some 1, assignedToMe := false
          dueToday := false, status := none, sortByDueDate := false
          page := 0, pageSize := 0 } ≠ .error .notOrganizationMember := by
  have hno := (membership_gate dbEx 0 1 2).1 (by decide)
  have hyes := (membership_gate dbEx 0 1 1).2 (by decide)
  exact ⟨hno.1 _ rfl rfl (by decide), hno.2 _ rfl rfl,
    hyes.1 _ rfl rfl, hyes.2 _ rfl rfl⟩

/-! ### C8: UnassignUsers permissiveness -/

/-- C8: with the creator as actor and a non-empty target list, UnassignUsers
succeeds without any membership requirement on the targets: the members
table is never consulted (replacing it by an arbitrary one gives the same
success and the same assignments), and when no target has a live assignment
row the call leaves the database unchanged rather than failing. -/
theorem unassignUsers_permissive (db : DB) (taskID actorID : Nat)
    (userIDs : List Nat) (task : Task)
    (hfind : GormTaskRepository.FindByID db taskID = some task)
    (hcr : task.creatorID = actorID) (hne : userIDs ≠ []) :
    ∃ db2, TaskService.UnassignUsers db taskID actorID userIDs = .ok db2 ∧
      (∀ ms : List OrganizationMember,
        TaskService.UnassignUsers { db with members := ms } taskID actorID userIDs =
          .ok { db2 with members := ms }) ∧
      ((∀ uid ∈ userIDs, db.liveAssignCount taskID uid = 0) → db2 = db) := by
  refine ⟨GormTaskRepository.UnassignUsers db taskID (uniqueUint64 userIDs), ?_, ?_, ?_⟩
  · simp only [TaskService.UnassignUsers, if_neg hne, hfind,
      if_neg (not_ne_iff.mpr hcr)]
  · intro ms
    have hfind2 : GormTaskRepository.FindByID { db with members := ms } taskID =
        some task := hfind
    simp only [TaskService.UnassignUsers, if_neg hne, hfind2,
      if_neg (not_ne_iff.mpr hcr)]
    rfl
  · intro hzero
    have hmap : db.assignments.map (fun r =>
        if r.taskID = taskID ∧ r.userID ∈ uniqueUint64 userIDs ∧ r.deleted = false then
          { r with deleted := true } else r) = db.assignments := by
      conv_rhs => rw [← List.map_id db.assignments]
      apply List.map_congr_left
      intro r hr
      rw [if_neg]
      · rfl
      · rintro ⟨h1, h2, h3⟩
        have huid : r.userID ∈ userIDs := (mem_uniqueUint64 _ _).mp h2
        have hcnt := hzero r.userID huid
        unfold DB.liveAssignCount at hcnt
        rw [List.length_eq_zero] at hcnt
        have hmem : r ∈ db.assignments.filter (fun x =>
            x.taskID = taskID ∧ x.userID = r.userID ∧ x.deleted = false) :=
          List.mem_filter.mpr ⟨hr, by simp [h1, h3]⟩
        rw [hcnt] at hmem
        cases hmem
    show GormTaskRepository.UnassignUsers db taskID (uniqueUint64 userIDs) = db
    unfold GormTaskRepository.UnassignUsers
    rw [hmap]

/-- C8 witness: unassigning bob (user 2, not a member of organization 1 and
with no assignment row) from task 1 by its creator succeeds and changes
nothing, also after the membership table is emptied. -/
theorem unassignUsers_permissive_check :
    TaskService.UnassignUsers dbEx 1 1 [2] = .ok dbEx ∧
    TaskService.UnassignUsers { dbEx with members := [] } 1 1 [2] =
      .ok { dbEx with members := [] } := by
  obtain ⟨db2, hok, hms, hnoop⟩ := unassignUsers_permissive dbEx 1 1 [2]
    { id := 1, title := "task one", description := "", status := "TODO"
      dueDate := none, creatorID := 1, organizationID := 1, createdAt := 0
      deleted := false }
    (by decide) rfl (by decide)
  have h2 : db2 = dbEx := hnoop (by decide)
  subst h2
  exact ⟨hok, hms []⟩

/-! ### C6: ToggleTaskStatus flips between exactly two states -/

theorem find?_map_update (tid : Nat) (t1 : Task) (hdel : t1.deleted = false)
    (hid : t1.id = tid) :
    ∀ (l : List Task) (t : Task),
      l.find? (fun x => x.id = tid ∧ x.deleted = false) = some t →
      (l.map (fun x => if x.id = t1.id then t1 else x)).find?
        (fun x => x.id = tid ∧ x.deleted = false) = some t1
  | [], t, hf => by cases hf
  | a :: l, t, hf => by
    by_cases hp : a.id = tid ∧ a.deleted = false
    · rw [List.map_cons, if_pos (hp.1.trans hid.symm),
        List.find?_cons_of_pos _ (by simp [hid, hdel])]
    · rw [List.find?_cons_of_neg _ (by simpa using hp)] at hf
      by_cases haid : a.id = t1.id
      · rw [List.map_cons, if_pos haid,
          List.find?_cons_of_pos _ (by simp [hid, hdel])]
      · rw [List.map_cons, if_neg haid,
          List.find?_cons_of_neg _ (by simpa using hp)]
        exact find?_map_update tid t1 hdel hid l t hf

/-- C6: for a permitted actor (creator or live assignee), ToggleTaskStatus
flips TODO to DONE and DONE to TODO (never any other state), and applying it
twice returns the task to its original status (in fact to the original
record). -/
theorem toggleTaskStatus_involution (db : DB) (taskID actorID : Nat) (task : Task)
    (hfind : GormTaskRepository.FindByID db taskID = some task)
    (hperm : task.creatorID = actorID ∨
      ∃ r ∈ db.assignments, r.taskID = task.id ∧ r.userID = actorID ∧ r.deleted = false)
    (hst : task.status = TaskStatusTodo ∨ task.status = TaskStatusDone) :
    ∃ db1 t1 db2 t2,
      TaskService.ToggleTaskStatus db taskID actorID = .ok (db1, t1) ∧
      t1.status = (if task.status = TaskStatusDone then TaskStatusTodo
        else TaskStatusDone) ∧
      t1.status ≠ task.status ∧
      (t1.status = TaskStatusTodo ∨ t1.status = TaskStatusDone) ∧
      TaskService.ToggleTaskStatus db1 taskID actorID = .ok (db2, t2) ∧
      t2.status = task.status ∧ t2 = task := by
  have hprop : task.id = taskID ∧ task.deleted = false := by
    have hf2 : db.tasks.find? (fun x => x.id = taskID ∧ x.deleted = false) =
      some task := hfind
    have h3 := List.find?_some hf2
    rwa [decide_eq_true_eq] at h3
  have hcond : ¬(task.creatorID ≠ actorID ∧
      ¬(db.assignments.any (fun r =>
        r.taskID = task.id ∧ r.userID = actorID ∧ r.deleted = false) = true)) := by
    rcases hperm with h | ⟨r, hr, hrt, hru, hrd⟩
    · exact fun hc => hc.1 h
    · exact fun hc => hc.2 (List.any_eq_true.mpr ⟨r, hr, by simp [hrt, hru, hrd]⟩)
  have h1 : TaskService.ToggleTaskStatus db taskID actorID =
      .ok (GormTaskRepository.Update db
        { task with status := if task.status = TaskStatusDone then TaskStatusTodo
            else TaskStatusDone },
        { task with status := if task.status = TaskStatusDone then TaskStatusTodo
            else TaskStatusDone }) := by
    simp only [TaskService.ToggleTaskStatus, hfind, if_neg hcond]
  have hfind1 : GormTaskRepository.FindByID
      (GormTaskRepository.Update db
        { task with status := if task.status = TaskStatusDone then TaskStatusTodo
            else TaskStatusDone }) taskID =
      some { task with status := if task.status = TaskStatusDone then TaskStatusTodo
            else TaskStatusDone } := by
    have hf2 : db.tasks.find? (fun x => x.id = taskID ∧ x.deleted = false) =
      some task := hfind
    exact find?_map_update taskID
      { task with status := if task.status = TaskStatusDone then TaskStatusTodo
          else TaskStatusDone }
      hprop.2 hprop.1 db.tasks task hf2
  have hcond1 : ¬(({ task with status := if task.status = TaskStatusDone
        then TaskStatusTodo else TaskStatusDone } : Task).creatorID ≠ actorID ∧
      ¬((GormTaskRepository.Update db
          { task with status := if task.status = TaskStatusDone then TaskStatusTodo
              else TaskStatusDone }).assignments.any (fun r =>
        r.taskID = ({ task with status := if task.status = TaskStatusDone
            then TaskStatusTodo else TaskStatusDone } : Task).id ∧
        r.userID = actorID ∧ r.deleted = false) = true)) := hcond
  have h2 : TaskService.ToggleTaskStatus
      (GormTaskRepository.Update db
        { task with status := if task.status = TaskStatusDone then TaskStatusTodo
            else TaskStatusDone }) taskID actorID =
      .ok (GormTaskRepository.Update
        (GormTaskRepository.Update db
          { task with status := if task.status = TaskStatusDone then TaskStatusTodo
              else TaskStatusDone })
        { { task with status := if task.status = TaskStatusDone then TaskStatusTodo
              else TaskStatusDone } with
          status := if ({ task with status := if task.status = TaskStatusDone
              then TaskStatusTodo else TaskStatusDone } : Task).status = TaskStatusDone
            then TaskStatusTodo else TaskStatusDone },
        { { task with status := if task.status = TaskStatusDone then TaskStatusTodo
              else TaskStatusDone } with
          status := if ({ task with status := if task.status = TaskStatusDone
              then TaskStatusTodo else TaskStatusDone } : Task).status = TaskStatusDone
            then TaskStatusTodo else TaskStatusDone }) := by
    simp only [TaskService.ToggleTaskStatus, hfind1, if_neg hcond1]
  refine ⟨_, _, _, _, h1, rfl, ?_, ?_, h2, ?_, ?_⟩
  · rcases hst with h | h <;> rw [h] <;> simp [TaskStatusTodo, TaskStatusDone]
  · rcases hst with h | h <;> rw [h] <;> simp [TaskStatusTodo, TaskStatusDone]
  · rcases hst with h | h <;> rw [h] <;> simp [TaskStatusTodo, TaskStatusDone]
  · obtain ⟨tid0, ttl, tds, tst, tdu, tcr, tor, tca, tde⟩ := task
    rcases hst with h | h <;> simp only at h <;> subst h <;>
      simp [TaskStatusTodo, TaskStatusDone]

/-- C6 witness: toggling task 1 (status TODO) by its creator yields DONE, and
toggling again restores TODO and the original record. -/
theorem toggleTaskStatus_involution_check :
    ∃ db1 t1 db2 t2,
      TaskService.ToggleTaskStatus dbEx 1 1 = .ok (db1, t1) ∧
      t1.status = "DONE" ∧
      TaskService.ToggleTaskStatus db1 1 1 = .ok (db2, t2) ∧
      t2.status = "TODO" := by
  obtain ⟨db1, t1, db2, t2, ha, hb, _, _, he, hf, _⟩ :=
    toggleTaskStatus_involution dbEx 1 1
      { id := 1, title := "task one", description := "", status := "TODO"
        dueDate := none, creatorID := 1, organizationID := 1, createdAt := 0
        deleted := false }
      (by decide) (Or.inl rfl) (Or.inl rfl)
  exact ⟨db1, t1, db2, t2, ha, by rw [hb]; decide, he, by rw [hf]⟩

/-! ### C2: Signup atomicity -/

/-- C2: Signup creates the user, the personal organization and the owner
membership inside one transaction: whenever any of the three inserts fails,
the call returns an error and the original database (no record persisted);
on success all three records exist, with the new user as owner of the new
organization. -/
theorem signup_atomic (db : DB) (now : Time) (hash : String → Option String)
    (genCode : Option String) (failUser failOrg failMember : Bool)
    (input : AuthService.SignupInput) :
    ((failUser = true ∨ failOrg = true ∨ failMember = true) →
      ∃ e, AuthService.Signup db now hash genCode failUser failOrg failMember input =
        (db, .error e)) ∧
    (trimSpace input.username ≠ "" →
      ¬ input.password.length < MinPasswordLength →
      GormUserRepository.FindByUsername db (trimSpace input.username) = none →
      hash input.password ≠ none → genCode ≠ none →
      failUser = false → failOrg = false → failMember = false →
      ∃ db2 u org,
        AuthService.Signup db now hash genCode failUser failOrg failMember input =
          (db2, .ok u) ∧
        u ∈ db2.users ∧ u.username = trimSpace input.username ∧
        org ∈ db2.orgs ∧ org.name = trimSpace input.username ++ "の組織" ∧
        (∃ m ∈ db2.members, m.organizationID = org.id ∧ m.userID = u.id ∧
          m.role = RoleOwner)) := by
  constructor
  · intro hfail
    by_cases h1 : trimSpace input.username = ""
    · exact ⟨.usernameRequired, by simp only [AuthService.Signup, if_pos h1]⟩
    · by_cases h2 : input.password.length < MinPasswordLength
      · exact ⟨.passwordTooShort, by simp only [AuthService.Signup, if_neg h1, if_pos h2]⟩
      · cases h3 : GormUserRepository.FindByUsername db (trimSpace input.username) with
        | some u0 =>
          exact ⟨.usernameTaken, by simp only [AuthService.Signup, if_neg h1, if_neg h2, h3]⟩
        | none =>
          cases h4 : hash input.password with
          | none =>
            exact ⟨.failedToHashPassword,
              by simp only [AuthService.Signup, if_neg h1, if_neg h2, h3, h4]⟩
          | some hp =>
            cases h5 : genCode with
            | none =>
              exact ⟨.failedToCreateOrg,
                by simp only [AuthService.Signup, if_neg h1, if_neg h2, h3, h4, h5]⟩
            | some code =>
              cases hU : failUser with
              | true =>
                refine ⟨.failedToCreateUser, ?_⟩
                simp only [AuthService.Signup, if_neg h1, if_neg h2, h3, h4, h5,
                  GormUserRepository.CreateWithPersonalOrganization]
                simp
              | false =>
                cases hO : failOrg with
                | true =>
                  refine ⟨.failedToCreateOrg, ?_⟩
                  simp only [AuthService.Signup, if_neg h1, if_neg h2, h3, h4, h5,
                    GormUserRepository.CreateWithPersonalOrganization]
                  simp
                | false =>
                  cases hM : failMember with
                  | true =>
                    refine ⟨.failedToAddMember, ?_⟩
                    simp only [AuthService.Signup, if_neg h1, if_neg h2, h3, h4, h5,
                      GormUserRepository.CreateWithPersonalOrganization]
                    simp
                  | false =>
                    subst hU
                    subst hO
                    subst hM
                    rcases hfail with h | h | h <;> cases h
  · intro h1 h2 h3 h4 h5 hU hO hM
    subst hU
    subst hO
    subst hM
    obtain ⟨hp, hhp⟩ := Option.ne_none_iff_exists'.mp h4
    obtain ⟨code, hcode⟩ := Option.ne_none_iff_exists'.mp h5
    refine ⟨{ db with users := db.users ++ [{ id := db.nextUserID, username := trimSpace input.username, passwordHash := hp, deleted := false }], nextUserID := db.nextUserID + 1, orgs := db.orgs ++ [{ id := db.nextOrgID, name := trimSpace input.username ++ "の組織", inviteCode := code, deleted := false }], nextOrgID := db.nextOrgID + 1, members := db.members ++ [{ organizationID := db.nextOrgID, userID := db.nextUserID, role := RoleOwner, joinedAt := now }] }, { id := db.nextUserID, username := trimSpace input.username, passwordHash := hp, deleted := false }, { id := db.nextOrgID, name := trimSpace input.username ++ "の組織", inviteCode := code, deleted := false }, ?_, by simp, rfl, by simp, rfl, ⟨{ organizationID := db.nextOrgID, userID := db.nextUserID, role := RoleOwner, joinedAt := now }, by simp, rfl, rfl, rfl⟩⟩
    simp only [AuthService.Signup, if_neg h1, if_neg h2, h3, hhp, hcode,
      GormUserRepository.CreateWithPersonalOrganization]
    simp only [Bool.false_eq_true, if_false]
    rfl

/-- C2 witness: signing up carol with a failing organization insert returns
an error and the unchanged database; with no insert failing, the user row,
the personal organization "carolの組織" and her owner membership all exist. -/
theorem signup_atomic_check :
    (∃ e, AuthService.Signup dbEx 7 (fun p => some ("H" ++ p)) (some "code")
        false true false { username := " carol ", password := "password1" } =
      (dbEx, .error e)) ∧
    (∃ db2 u org, AuthService.Signup dbEx 7 (fun p => some ("H" ++ p)) (some "code")
        false false false { username := " carol ", password := "password1" } =
        (db2, .ok u) ∧
      u ∈ db2.users ∧ u.username = trimSpace " carol " ∧ org ∈ db2.orgs ∧
      org.name = trimSpace " carol " ++ "の組織" ∧
      (∃ m ∈ db2.members, m.organizationID = org.id ∧ m.userID = u.id ∧
        m.role = RoleOwner)) := by
  constructor
  · exact (signup_atomic dbEx 7 (fun p => some ("H" ++ p)) (some "code")
      false true false { username := " carol ", password := "password1" }).1
      (Or.inr (Or.inl rfl))
  · exact (signup_atomic dbEx 7 (fun p => some ("H" ++ p)) (some "code")
      false false false { username := " carol ", password := "password1" }).2
      (by decide) (by decide) (by decide) (by decide) (by decide) rfl rfl rfl

/-! ### Helper lemmas about the assignment upsert and the join count -/

theorem filter_key_length_ite {α κ : Type} [DecidableEq κ] (key : α → κ) (k : κ)
    (l : List α) (hnd : (l.map key).Nodup) :
    (l.filter (fun x => key x = k)).length =
      if l.any (fun x => key x = k) then 1 else 0 := by
  by_cases hany : l.any (fun x => key x = k) = true
  · rw [if_pos hany]
    obtain ⟨x, hx, hkx⟩ := List.any_eq_true.mp hany
    exact filter_key_length_eq_one key k l hnd ⟨x, hx, by simpa using hkx⟩
  · rw [if_neg hany]
    have : l.filter (fun x => key x = k) = [] := by
      rw [List.filter_eq_nil_iff]
      intro x hx hkx
      exact hany (List.any_eq_true.mpr ⟨x, hx, hkx⟩)
    rw [this]
    rfl

theorem filter_map_invariant {α : Type} (f : α → α) (p : α → Bool) :
    ∀ rows : List α,
      (∀ r ∈ rows, f r = r ∨ (p r = false ∧ p (f r) = false)) →
      (rows.map f).filter p = rows.filter p
  | [], _ => rfl
  | a :: l, h => by
    rw [List.map_cons, List.filter_cons, List.filter_cons]
    rcases h a (List.mem_cons_self a l) with hfa | ⟨hpa, hpfa⟩
    · rw [hfa, filter_map_invariant f p l (fun r hr => h r (List.mem_cons_of_mem a hr))]
    · rw [hpa, hpfa]
      simp only [Bool.false_eq_true, if_false]
      exact filter_map_invariant f p l (fun r hr => h r (List.mem_cons_of_mem a hr))

theorem length_filter_map_of_pred_inv {α : Type} (f : α → α) (p : α → Bool) :
    ∀ rows : List α, (∀ r ∈ rows, p (f r) = p r) →
      ((rows.map f).filter p).length = (rows.filter p).length
  | [], _ => rfl
  | a :: l, h => by
    rw [List.map_cons, List.filter_cons, List.filter_cons,
      h a (List.mem_cons_self a l)]
    by_cases hpa : p a = true
    · rw [if_pos hpa, if_pos hpa, List.length_cons, List.length_cons,
        length_filter_map_of_pred_inv f p l (fun r hr => h r (List.mem_cons_of_mem a hr))]
    · rw [if_neg hpa, if_neg hpa,
        length_filter_map_of_pred_inv f p l (fun r hr => h r (List.mem_cons_of_mem a hr))]

theorem filter_upsert_of_ne (rows : List TaskAssignment) (t u t' u' : Nat)
    (hne : ¬(t' = t ∧ u' = u)) (p : TaskAssignment → Bool)
    (hkey : ∀ r, p r = true → r.taskID = t' ∧ r.userID = u') :
    (GormTaskRepository.upsertAssignment rows t u).filter p = rows.filter p := by
  unfold GormTaskRepository.upsertAssignment
  split
  · apply filter_map_invariant
    intro r _
    by_cases hm : r.taskID = t ∧ r.userID = u
    · right
      rw [if_pos hm]
      constructor
      · cases hq : p r
        · rfl
        · obtain ⟨h1, h2⟩ := hkey r hq
          exact absurd ⟨h1.symm.trans hm.1, h2.symm.trans hm.2⟩ hne
      · cases hq : p { r with deleted := false }
        · rfl
        · obtain ⟨h1, h2⟩ := hkey _ hq
          exact absurd ⟨h1.symm.trans hm.1, h2.symm.trans hm.2⟩ hne
    · left
      exact if_neg hm
  · rw [List.filter_append]
    have hnil : ([{ taskID := t, userID := u, deleted := false }] :
        List TaskAssignment).filter p = [] := by
      rw [List.filter_eq_nil_iff]
      intro x hx hpx
      rw [List.mem_singleton] at hx
      obtain ⟨h1, h2⟩ := hkey x hpx
      subst hx
      exact hne ⟨h1.symm, h2.symm⟩
    rw [hnil, List.append_nil]

theorem upsert_fresh (rows : List TaskAssignment) (nid uid : Nat)
    (hfresh : ∀ r ∈ rows, r.taskID < nid) :
    GormTaskRepository.upsertAssignment rows nid uid =
      rows ++ [{ taskID := nid, userID := uid, deleted := false }] := by
  unfold GormTaskRepository.upsertAssignment
  rw [if_neg]
  intro h
  obtain ⟨r, hr, hpr⟩ := List.any_eq_true.mp h
  rw [decide_eq_true_eq] at hpr
  exact absurd hpr.1 (Nat.ne_of_lt (hfresh r hr))

theorem upsert_countKey_self_le (rows : List TaskAssignment) (t u : Nat)
    (hle : (rows.filter (fun r => r.taskID = t ∧ r.userID = u)).length ≤ 1) :
    ((GormTaskRepository.upsertAssignment rows t u).filter
      (fun r => r.taskID = t ∧ r.userID = u)).length ≤ 1 := by
  unfold GormTaskRepository.upsertAssignment
  split
  · rw [length_filter_map_of_pred_inv]
    · exact hle
    · intro r _
      by_cases hm : r.taskID = t ∧ r.userID = u
      · rw [if_pos hm]
      · rw [if_neg hm]
  case isFalse hany =>
    rw [List.filter_append]
    have h0 : rows.filter (fun r => r.taskID = t ∧ r.userID = u) = [] := by
      rw [List.filter_eq_nil_iff]
      intro r hr hpr
      exact hany (List.any_eq_true.mpr ⟨r, hr, hpr⟩)
    rw [h0]
    simp

theorem filter_live_map_livify (t u : Nat) :
    ∀ rows : List TaskAssignment,
      ((rows.map (fun r =>
          if r.taskID = t ∧ r.userID = u then { r with deleted := false } else r)).filter
        (fun r => r.taskID = t ∧ r.userID = u ∧ r.deleted = false)) =
      (rows.filter (fun r => r.taskID = t ∧ r.userID = u)).map
        (fun r => { r with deleted := false })
  | [] => rfl
  | a :: l => by
    rw [List.map_cons, List.filter_cons, List.filter_cons]
    by_cases ha : a.taskID = t ∧ a.userID = u
    · rw [if_pos ha, if_pos (by simp [ha.1, ha.2]), if_pos (by simp [ha.1, ha.2]),
        List.map_cons]
      exact congrArg (List.cons _) (filter_live_map_livify t u l)
    · rw [if_neg ha]
      rw [if_neg (show ¬(decide (a.taskID = t ∧ a.userID = u ∧ a.deleted = false) = true)
        from by simp only [decide_eq_true_eq]; exact fun hc => ha ⟨hc.1, hc.2.1⟩)]
      rw [if_neg (show ¬(decide (a.taskID = t ∧ a.userID = u) = true)
        from by simp only [decide_eq_true_eq]; exact ha)]
      exact filter_live_map_livify t u l

theorem upsert_live_self (rows : List TaskAssignment) (t u : Nat)
    (hle : (rows.filter (fun r => r.taskID = t ∧ r.userID = u)).length ≤ 1) :
    ((GormTaskRepository.upsertAssignment rows t u).filter
      (fun r => r.taskID = t ∧ r.userID = u ∧ r.deleted = false)).length = 1 := by
  unfold GormTaskRepository.upsertAssignment
  split
  case isTrue hany =>
    rw [filter_live_map_livify t u rows, List.length_map]
    obtain ⟨r, hr, hpr⟩ := List.any_eq_true.mp hany
    have hge : 0 < (rows.filter (fun r => r.taskID = t ∧ r.userID = u)).length :=
      List.length_pos_of_mem (List.mem_filter.mpr ⟨hr, hpr⟩)
    omega
  case isFalse hany =>
    rw [List.filter_append]
    have h0 : rows.filter (fun r => r.taskID = t ∧ r.userID = u ∧ r.deleted = false) = [] := by
      rw [List.filter_eq_nil_iff]
      intro r hr hpr
      rw [decide_eq_true_eq] at hpr
      exact hany (List.any_eq_true.mpr ⟨r, hr, by simp [hpr.1, hpr.2.1]⟩)
    rw [h0]
    simp

theorem foldl_upsert_other (t uid : Nat) :
    ∀ (ids : List Nat) (rows : List TaskAssignment), uid ∉ ids →
      ((ids.foldl (fun acc v => GormTaskRepository.upsertAssignment acc t v) rows).filter
        (fun r => r.taskID = t ∧ r.userID = uid ∧ r.deleted = false)) =
      rows.filter (fun r => r.taskID = t ∧ r.userID = uid ∧ r.deleted = false)
  | [], _, _ => rfl
  | v :: ids, rows, h => by
    rw [List.foldl_cons]
    have hv : uid ≠ v := fun hh => h (hh ▸ List.mem_cons_self v ids)
    rw [foldl_upsert_other t uid ids _ (fun hh => h (List.mem_cons_of_mem v hh))]
    exact filter_upsert_of_ne rows t v t uid (fun hc => hv hc.2) _
      (fun r hpr => by rw [decide_eq_true_eq] at hpr; exact ⟨hpr.1, hpr.2.1⟩)

theorem foldl_upsert_live (t : Nat) :
    ∀ (ids : List Nat) (rows : List TaskAssignment), ids.Nodup →
      (∀ w, (rows.filter (fun r => r.taskID = t ∧ r.userID = w)).length ≤ 1) →
      ∀ uid ∈ ids,
        ((ids.foldl (fun acc v => GormTaskRepository.upsertAssignment acc t v) rows).filter
          (fun r => r.taskID = t ∧ r.userID = uid ∧ r.deleted = false)).length = 1
  | [], _, _, _, uid, h => absurd h (List.not_mem_nil uid)
  | v :: ids, rows, hnd, hle, uid, h => by
    rw [List.foldl_cons]
    rw [List.nodup_cons] at hnd
    have hle2 : ∀ w, (((GormTaskRepository.upsertAssignment rows t v).filter
        (fun r => r.taskID = t ∧ r.userID = w)).length ≤ 1) := by
      intro w
      by_cases hw : w = v
      · subst hw
        exact upsert_countKey_self_le rows t w (hle w)
      · rw [filter_upsert_of_ne rows t v t w (fun hc => hw hc.2) _
          (fun r hpr => by rw [decide_eq_true_eq] at hpr; exact hpr)]
        exact hle w
    rcases List.mem_cons.mp h with hh | hh
    · subst hh
      rw [foldl_upsert_other t uid ids _ hnd.1]
      exact upsert_live_self rows t uid (hle uid)
    · exact foldl_upsert_live t ids _ hnd.2 hle2 uid hh

theorem wf_countKey_le_one (db : DB) (hwf : db.WF) (t w : Nat) :
    (db.assignments.filter (fun r => r.taskID = t ∧ r.userID = w)).length ≤ 1 := by
  have hc : db.assignments.filter (fun r => r.taskID = t ∧ r.userID = w) =
      db.assignments.filter (fun r => (r.taskID, r.userID) = (t, w)) := by
    apply List.filter_congr
    intro r _
    simp [Prod.ext_iff]
  rw [hc]
  exact filter_key_length_le_one (fun r => (r.taskID, r.userID)) (t, w)
    db.assignments hwf.2.2.2.2.2.2.2.1

theorem upsert_eq_self (rows : List TaskAssignment) (t u : Nat)
    (hex : ∃ r ∈ rows, r.taskID = t ∧ r.userID = u)
    (hall : ∀ r ∈ rows, r.taskID = t ∧ r.userID = u → r.deleted = false) :
    GormTaskRepository.upsertAssignment rows t u = rows := by
  unfold GormTaskRepository.upsertAssignment
  rw [if_pos]
  · have hmap : rows.map (fun r =>
        if r.taskID = t ∧ r.userID = u then { r with deleted := false } else r) =
        rows.map id := by
      apply List.map_congr_left
      intro r hr
      by_cases hm : r.taskID = t ∧ r.userID = u
      · have hd := hall r hr hm
        obtain ⟨rt, ru, rd⟩ := r
        simp only at hd
        subst hd
        rw [if_pos hm]
        rfl
      · rw [if_neg hm]
        rfl
    rw [hmap, List.map_id]
  · obtain ⟨r, hr, hpr⟩ := hex
    exact List.any_eq_true.mpr ⟨r, hr, by simpa using hpr⟩

theorem upsert_establish (rows : List TaskAssignment) (t u : Nat) :
    (∃ r ∈ GormTaskRepository.upsertAssignment rows t u,
      r.taskID = t ∧ r.userID = u) ∧
    (∀ r ∈ GormTaskRepository.upsertAssignment rows t u,
      r.taskID = t ∧ r.userID = u → r.deleted = false) := by
  unfold GormTaskRepository.upsertAssignment
  split
  case isTrue hany =>
    obtain ⟨r0, hr0, hpr0⟩ := List.any_eq_true.mp hany
    rw [decide_eq_true_eq] at hpr0
    constructor
    · refine ⟨{ r0 with deleted := false }, ?_, hpr0.1, hpr0.2⟩
      exact List.mem_map.mpr ⟨r0, hr0, by simp [hpr0.1, hpr0.2]⟩
    · intro r hr hkey
      obtain ⟨r1, hr1, hfr⟩ := List.mem_map.mp hr
      by_cases hm : r1.taskID = t ∧ r1.userID = u
      · rw [if_pos hm] at hfr
        rw [← hfr]
      · rw [if_neg hm] at hfr
        subst hfr
        exact absurd hkey hm
  case isFalse hany =>
    constructor
    · exact ⟨{ taskID := t, userID := u, deleted := false }, by simp, rfl, rfl⟩
    · intro r hr hkey
      rcases List.mem_append.mp hr with h | h
      · exact absurd (List.any_eq_true.mpr ⟨r, h, by simpa using hkey⟩) hany
      · rw [List.mem_singleton] at h
        subst h
        rfl

theorem upsert_preserve (rows : List TaskAssignment) (t u t' u' : Nat)
    (hex : ∃ r ∈ rows, r.taskID = t' ∧ r.userID = u')
    (hall : ∀ r ∈ rows, r.taskID = t' ∧ r.userID = u' → r.deleted = false) :
    (∃ r ∈ GormTaskRepository.upsertAssignment rows t u,
      r.taskID = t' ∧ r.userID = u') ∧
    (∀ r ∈ GormTaskRepository.upsertAssignment rows t u,
      r.taskID = t' ∧ r.userID = u' → r.deleted = false) := by
  unfold GormTaskRepository.upsertAssignment
  split
  · constructor
    · obtain ⟨r0, hr0, h1, h2⟩ := hex
      by_cases hm : r0.taskID = t ∧ r0.userID = u
      · refine ⟨{ r0 with deleted := false }, ?_, h1, h2⟩
        exact List.mem_map.mpr ⟨r0, hr0, by simp [hm.1, hm.2]⟩
      · refine ⟨r0, ?_, h1, h2⟩
        exact List.mem_map.mpr ⟨r0, hr0, by simp [hm]⟩
    · intro r hr hkey
      obtain ⟨r1, hr1, hfr⟩ := List.mem_map.mp hr
      by_cases hm : r1.taskID = t ∧ r1.userID = u
      · rw [if_pos hm] at hfr
        rw [← hfr]
      · rw [if_neg hm] at hfr
        subst hfr
        exact hall r1 hr1 hkey
  · constructor
    · obtain ⟨r0, hr0, hp⟩ := hex
      exact ⟨r0, List.mem_append_left _ hr0, hp⟩
    · intro r hr hkey
      rcases List.mem_append.mp hr with h | h
      · exact hall r h hkey
      · rw [List.mem_singleton] at h
        subst h
        rfl

theorem foldl_upsert_preserve (t t' u' : Nat) :
    ∀ (ids : List Nat) (rows : List TaskAssignment),
      (∃ r ∈ rows, r.taskID = t' ∧ r.userID = u') →
      (∀ r ∈ rows, r.taskID = t' ∧ r.userID = u' → r.deleted = false) →
      (∃ r ∈ ids.foldl (fun acc v => GormTaskRepository.upsertAssignment acc t v) rows,
        r.taskID = t' ∧ r.userID = u') ∧
      (∀ r ∈ ids.foldl (fun acc v => GormTaskRepository.upsertAssignment acc t v) rows,
        r.taskID = t' ∧ r.userID = u' → r.deleted = false)
  | [], _, hex, hall => ⟨hex, hall⟩
  | v :: ids, rows, hex, hall => by
    rw [List.foldl_cons]
    have h := upsert_preserve rows t v t' u' hex hall
    exact foldl_upsert_preserve t t' u' ids _ h.1 h.2

theorem foldl_upsert_P (t : Nat) :
    ∀ (ids : List Nat) (rows : List TaskAssignment) (uid : Nat), uid ∈ ids →
      (∃ r ∈ ids.foldl (fun acc v => GormTaskRepository.upsertAssignment acc t v) rows,
        r.taskID = t ∧ r.userID = uid) ∧
      (∀ r ∈ ids.foldl (fun acc v => GormTaskRepository.upsertAssignment acc t v) rows,
        r.taskID = t ∧ r.userID = uid → r.deleted = false)
  | [], _, uid, h => absurd h (List.not_mem_nil uid)
  | v :: ids, rows, uid, h => by
    rw [List.foldl_cons]
    rcases List.mem_cons.mp h with hh | hh
    · subst hh
      have h0 := upsert_establish rows t uid
      exact foldl_upsert_preserve t t uid ids _ h0.1 h0.2
    · exact foldl_upsert_P t ids _ uid hh

theorem foldl_upsert_idem (t : Nat) :
    ∀ (ids : List Nat) (rows : List TaskAssignment),
      (∀ uid ∈ ids, (∃ r ∈ rows, r.taskID = t ∧ r.userID = uid) ∧
        (∀ r ∈ rows, r.taskID = t ∧ r.userID = uid → r.deleted = false)) →
      ids.foldl (fun acc v => GormTaskRepository.upsertAssignment acc t v) rows = rows
  | [], _, _ => rfl
  | v :: ids, rows, h => by
    rw [List.foldl_cons]
    rw [upsert_eq_self rows t v (h v (List.mem_cons_self v ids)).1
      (h v (List.mem_cons_self v ids)).2]
    exact foldl_upsert_idem t ids rows (fun uid hu => h uid (List.mem_cons_of_mem v hu))

theorem sum_map_ite {α : Type} (g : α → Nat) (q : α → Bool) :
    ∀ l : List α, (∀ m ∈ l, g m = if q m then 1 else 0) →
      (l.map g).sum = (l.filter q).length
  | [], _ => rfl
  | a :: l, h => by
    rw [List.map_cons, List.sum_cons, List.filter_cons, h a (List.mem_cons_self a l),
      sum_map_ite g q l (fun m hm => h m (List.mem_cons_of_mem a hm))]
    by_cases hq : q a = true
    · rw [if_pos hq, if_pos hq, List.length_cons]
      omega
    · rw [if_neg hq, if_neg hq]
      omega

theorem filter_and_length_le {α : Type} (p q : α → Bool) :
    ∀ l : List α, (∀ a ∈ l, p a = true → q a = true) →
      (l.filter p).length ≤ (l.filter q).length
  | [], _ => Nat.le_refl 0
  | a :: l, h => by
    rw [List.filter_cons, List.filter_cons]
    by_cases hp : p a = true
    · rw [if_pos hp, if_pos (h a (List.mem_cons_self a l) hp), List.length_cons,
        List.length_cons]
      exact Nat.succ_le_succ
        (filter_and_length_le p q l (fun b hb => h b (List.mem_cons_of_mem a hb)))
    · rw [if_neg hp]
      by_cases hqa : q a = true
      · rw [if_pos hqa, List.length_cons]
        exact Nat.le_trans
          (filter_and_length_le p q l (fun b hb => h b (List.mem_cons_of_mem a hb)))
          (Nat.le_succ _)
      · rw [if_neg hqa]
        exact filter_and_length_le p q l (fun b hb => h b (List.mem_cons_of_mem a hb))

theorem user_filter_length (db : DB) (husers : (db.users.map (fun u => u.id)).Nodup)
    (uid : Nat) :
    (db.users.filter (fun u => u.deleted = false ∧ u.id = uid)).length =
      if db.users.any (fun u => u.deleted = false ∧ u.id = uid) then 1 else 0 := by
  by_cases hany : db.users.any (fun u => u.deleted = false ∧ u.id = uid) = true
  · rw [if_pos hany]
    obtain ⟨u0, hu0, hp0⟩ := List.any_eq_true.mp hany
    rw [decide_eq_true_eq] at hp0
    have hle : (db.users.filter (fun u => u.deleted = false ∧ u.id = uid)).length ≤
        (db.users.filter (fun u => u.id = uid)).length :=
      filter_and_length_le _ _ db.users (fun a _ hpa => by
        rw [decide_eq_true_eq] at hpa
        simp [hpa.2])
    have hkey : (db.users.filter (fun u => u.id = uid)).length ≤ 1 :=
      filter_key_length_le_one (fun u => u.id) uid db.users husers
    have hge : 0 < (db.users.filter (fun u => u.deleted = false ∧ u.id = uid)).length :=
      List.length_pos_of_mem (List.mem_filter.mpr ⟨hu0, by simp [hp0.1, hp0.2]⟩)
    omega
  · rw [if_neg hany]
    have h0 : db.users.filter (fun u => u.deleted = false ∧ u.id = uid) = [] := by
      rw [List.filter_eq_nil_iff]
      intro u hu hpu
      exact hany (List.any_eq_true.mpr ⟨u, hu, hpu⟩)
    rw [h0]
    rfl

theorem members_filter_count (db : DB) (o : Nat)
    (hmem : (db.members.map (fun m => (m.organizationID, m.userID))).Nodup)
    (q : Nat → Bool) :
    ∀ ids : List Nat, ids.Nodup →
      (db.members.filter (fun m =>
        m.organizationID = o ∧ m.userID ∈ ids ∧ q m.userID = true)).length =
      (ids.filter (fun uid => q uid = true ∧
        db.members.any (fun m => m.organizationID = o ∧ m.userID = uid) = true)).length
  | [], _ => by
    have h1 : db.members.filter (fun m =>
        m.organizationID = o ∧ m.userID ∈ ([] : List Nat) ∧ q m.userID = true) = [] := by
      rw [List.filter_eq_nil_iff]
      intro m _ hpm
      rw [decide_eq_true_eq] at hpm
      exact absurd hpm.2.1 (List.not_mem_nil _)
    rw [h1]
    rfl
  | uid :: ids, hnd => by
    rw [List.nodup_cons] at hnd
    have hsplit := length_filter_disjoint_or
      (fun m : OrganizationMember =>
        decide (m.organizationID = o ∧ m.userID = uid ∧ q m.userID = true))
      (fun m : OrganizationMember =>
        decide (m.organizationID = o ∧ m.userID ∈ ids ∧ q m.userID = true))
      (fun m : OrganizationMember =>
        decide (m.organizationID = o ∧ m.userID ∈ uid :: ids ∧ q m.userID = true))
      (by
        intro m
        simp only [decide_eq_true_eq, List.mem_cons]
        constructor
        · rintro ⟨h1, h2 | h2, h3⟩
          · exact Or.inl ⟨h1, h2, h3⟩
          · exact Or.inr ⟨h1, h2, h3⟩
        · rintro (⟨h1, h2, h3⟩ | ⟨h1, h2, h3⟩)
          · exact ⟨h1, Or.inl h2, h3⟩
          · exact ⟨h1, Or.inr h2, h3⟩)
      (by
        intro m
        simp only [decide_eq_true_eq]
        rintro ⟨⟨_, h2, _⟩, ⟨_, h2', _⟩⟩
        exact hnd.1 (h2 ▸ h2'))
      db.members
    rw [hsplit, members_filter_count db o hmem q ids hnd.2]
    have hfirst : (db.members.filter (fun m =>
        m.organizationID = o ∧ m.userID = uid ∧ q m.userID = true)).length =
        if q uid = true ∧ db.members.any
            (fun m => m.organizationID = o ∧ m.userID = uid) = true
        then 1 else 0 := by
      by_cases hq : q uid = true
      · have hc : db.members.filter (fun m =>
            m.organizationID = o ∧ m.userID = uid ∧ q m.userID = true) =
            db.members.filter (fun m => (m.organizationID, m.userID) = (o, uid)) := by
          apply List.filter_congr
          intro m _
          apply decide_eq_decide.mpr
          constructor
          · rintro ⟨h1, h2, _⟩
            rw [Prod.mk.injEq]
            exact ⟨h1, h2⟩
          · intro hp
            rw [Prod.mk.injEq] at hp
            exact ⟨hp.1, hp.2, hp.2 ▸ hq⟩
        rw [hc, filter_key_length_ite (fun m => (m.organizationID, m.userID)) (o, uid)
          db.members hmem]
        by_cases hany : db.members.any
            (fun m => m.organizationID = o ∧ m.userID = uid) = true
        · have hany2 : db.members.any
              (fun m => (m.organizationID, m.userID) = (o, uid)) = true := by
            obtain ⟨m, hm, hpm⟩ := List.any_eq_true.mp hany
            rw [decide_eq_true_eq] at hpm
            exact List.any_eq_true.mpr ⟨m, hm, by
              rw [decide_eq_true_eq, Prod.mk.injEq]
              exact ⟨hpm.1, hpm.2⟩⟩
          rw [if_pos hany2, if_pos ⟨hq, hany⟩]
        · have hany2 : ¬ db.members.any
              (fun m => (m.organizationID, m.userID) = (o, uid)) = true := by
            intro hcon
            obtain ⟨m, hm, hpm⟩ := List.any_eq_true.mp hcon
            rw [decide_eq_true_eq, Prod.mk.injEq] at hpm
            exact hany (List.any_eq_true.mpr ⟨m, hm, by
              rw [decide_eq_true_eq]
              exact ⟨hpm.1, hpm.2⟩⟩)
          rw [if_neg hany2, if_neg (fun hc => hany hc.2)]
      · have h0 : db.members.filter (fun m =>
            m.organizationID = o ∧ m.userID = uid ∧ q m.userID = true) = [] := by
          rw [List.filter_eq_nil_iff]
          intro m hm hpm
          rw [decide_eq_true_eq] at hpm
          exact hq (hpm.2.1 ▸ hpm.2.2)
        rw [h0, if_neg (fun hc => hq hc.1)]
        rfl
    rw [hfirst, List.filter_cons]
    by_cases hval : q uid = true ∧ db.members.any
        (fun m => m.organizationID = o ∧ m.userID = uid) = true
    · rw [if_pos hval, if_pos (by simpa using hval), List.length_cons]
      omega
    · rw [if_neg hval, if_neg (by simpa using hval)]
      omega

theorem countUsers_eq_valid (db : DB) (o : Nat) (hwf : db.WF)
    (ids : List Nat) (hnd : ids.Nodup) :
    GormTaskRepository.CountUsersByIDs db ids o =
      (ids.filter (fun uid => db.HasUser uid ∧ db.HasMember o uid)).length := by
  unfold GormTaskRepository.CountUsersByIDs
  rw [sum_map_ite (fun m : OrganizationMember => (db.users.filter
      (fun u => u.deleted = false ∧ u.id = m.userID)).length)
    (fun m : OrganizationMember =>
      db.users.any (fun u => u.deleted = false ∧ u.id = m.userID))
    (db.members.filter (fun m => m.organizationID = o ∧ m.userID ∈ ids))
    (fun m _ => user_filter_length db hwf.1 m.userID)]
  rw [List.filter_filter]
  have hc : db.members.filter (fun a =>
      db.users.any (fun u => u.deleted = false ∧ u.id = a.userID) &&
      decide (a.organizationID = o ∧ a.userID ∈ ids)) =
      db.members.filter (fun m => m.organizationID = o ∧ m.userID ∈ ids ∧
        db.users.any (fun u => u.deleted = false ∧ u.id = m.userID) = true) := by
    apply List.filter_congr
    intro m _
    cases hx : db.users.any (fun u => u.deleted = false ∧ u.id = m.userID) with
    | false =>
      rw [Bool.false_and]
      symm
      apply decide_eq_false
      rintro ⟨_, _, h3⟩
      cases h3
    | true =>
      rw [Bool.true_and]
      by_cases hp : m.organizationID = o ∧ m.userID ∈ ids
      · rw [decide_eq_true hp]
        symm
        exact decide_eq_true ⟨hp.1, hp.2, rfl⟩
      · rw [decide_eq_false hp]
        symm
        apply decide_eq_false
        rintro ⟨h1, h2, _⟩
        exact hp ⟨h1, h2⟩
  rw [hc, members_filter_count db o hwf.2.2.2.2.2.2.1 (fun w =>
    db.users.any (fun u => u.deleted = false ∧ u.id = w)) ids hnd]
  apply congrArg List.length
  apply List.filter_congr
  intro uid _
  apply decide_eq_decide.mpr
  exact and_congr (hasUser_iff_any db uid).symm (hasMember_iff_any db o uid).symm

/-! ### C3: AssignUsers validation against the task's organization -/

/-- C3: with the creator as actor and a non-empty list, AssignUsers fails
InvalidTaskAssignee exactly when fewer of the de-duplicated target ids are
both existing (live) users and members of the organization the task belongs
to than the de-duplicated count; otherwise it succeeds and leaves exactly
one live assignment row per de-duplicated id. -/
theorem assignUsers_validation (db : DB) (input : TaskService.AssignUsersInput)
    (task : Task) (hwf : db.WF)
    (hfind : GormTaskRepository.FindByID db input.taskID = some task)
    (hcr : task.creatorID = input.actorID) (hne : input.userIDs ≠ []) :
    (TaskService.AssignUsers db input = .error .invalidTaskAssignee ↔
      ((uniqueUint64 input.userIDs).filter (fun uid =>
        db.HasUser uid ∧ db.HasMember task.organizationID uid)).length <
        (uniqueUint64 input.userIDs).length) ∧
    (¬ ((uniqueUint64 input.userIDs).filter (fun uid =>
        db.HasUser uid ∧ db.HasMember task.organizationID uid)).length <
        (uniqueUint64 input.userIDs).length →
      ∃ db2, TaskService.AssignUsers db input = .ok db2 ∧
        ∀ uid ∈ uniqueUint64 input.userIDs,
          db2.liveAssignCount task.id uid = 1) := by
  have hcnt := countUsers_eq_valid db task.organizationID hwf
    (uniqueUint64 input.userIDs) (nodup_uniqueUint64 _)
  have hle : ((uniqueUint64 input.userIDs).filter (fun uid =>
      db.HasUser uid ∧ db.HasMember task.organizationID uid)).length ≤
      (uniqueUint64 input.userIDs).length := List.length_filter_le _ _
  constructor
  · constructor
    · intro herr
      by_cases hcond : GormTaskRepository.CountUsersByIDs db
          (uniqueUint64 input.userIDs) task.organizationID ≠
          (uniqueUint64 input.userIDs).length
      · rw [hcnt] at hcond
        omega
      · exfalso
        simp only [TaskService.AssignUsers, if_neg hne, hfind,
          if_neg (not_ne_iff.mpr hcr), if_neg hcond] at herr
        cases herr
    · intro hlt
      have hcond : GormTaskRepository.CountUsersByIDs db
          (uniqueUint64 input.userIDs) task.organizationID ≠
          (uniqueUint64 input.userIDs).length := by
        rw [hcnt]
        omega
      simp only [TaskService.AssignUsers, if_neg hne, hfind,
        if_neg (not_ne_iff.mpr hcr), if_pos hcond]
  · intro hnlt
    have hcond : ¬ GormTaskRepository.CountUsersByIDs db
        (uniqueUint64 input.userIDs) task.organizationID ≠
        (uniqueUint64 input.userIDs).length := by
      rw [hcnt]
      omega
    refine ⟨GormTaskRepository.AssignUsers db task.id (uniqueUint64 input.userIDs),
      ?_, ?_⟩
    · simp only [TaskService.AssignUsers, if_neg hne, hfind,
        if_neg (not_ne_iff.mpr hcr), if_neg hcond]
    · intro uid hu
      exact foldl_upsert_live task.id (uniqueUint64 input.userIDs) db.assignments
        (nodup_uniqueUint64 _) (fun w => wf_countKey_le_one db hwf task.id w) uid hu

/-- C3 witness: assigning bob (user 2) to task 1 fails InvalidTaskAssignee
while bob is not a member of organization 1; after he joins, the call with
the duplicated list [2, 2] succeeds and leaves one live row for him. -/
theorem assignUsers_validation_check :
    TaskService.AssignUsers dbEx { taskID := 1, actorID := 1, userIDs := [2] } =
      .error .invalidTaskAssignee ∧
    (∃ db2, TaskService.AssignUsers dbExB
        { taskID := 1, actorID := 1, userIDs := [2, 2] } = .ok db2 ∧
      ∀ uid ∈ uniqueUint64 [2, 2], db2.liveAssignCount 1 uid = 1) := by
  constructor
  · exact (assignUsers_validation dbEx { taskID := 1, actorID := 1, userIDs := [2] }
      { id := 1, title := "task one", description := "", status := "TODO"
        dueDate := none, creatorID := 1, organizationID := 1, createdAt := 0
        deleted := false }
      (by decide) (by decide) rfl (by decide)).1.mpr (by decide)
  · exact (assignUsers_validation dbExB { taskID := 1, actorID := 1, userIDs := [2, 2] }
      { id := 1, title := "task one", description := "", status := "TODO"
        dueDate := none, creatorID := 1, organizationID := 1, createdAt := 0
        deleted := false }
      (by decide) (by decide) rfl (by decide)).2 (by decide)

/-! ### C4: CreateTask self-assigns the creator -/

/-- C4: every successful CreateTask returns a task created by the caller and
a state with exactly one live assignment row linking the creator to the new
task. -/
theorem createTask_self_assignment (db : DB) (now : Time)
    (input : TaskService.CreateTaskInput) (hwf : db.WF) (db2 : DB) (t : Task)
    (hok : TaskService.CreateTask db now input = .ok (db2, t)) :
    t.creatorID = input.creatorID ∧ db2.liveAssignCount t.id input.creatorID = 1 := by
  by_cases hti : input.title = ""
  · simp only [TaskService.CreateTask, if_pos hti] at hok
    cases hok
  cases hens : TaskService.ensureOrganizationMember db input.organizationID
      input.creatorID with
  | error e =>
    simp only [TaskService.CreateTask, if_neg hti, hens] at hok
    cases hok
  | ok u =>
    have hmem : db.HasMember input.organizationID input.creatorID := by
      unfold DB.HasMember
      intro hnone
      unfold TaskService.ensureOrganizationMember at hens
      rw [hnone] at hens
      cases hens
    have hrun := createTask_run db now input hwf.2.2.2.2.2.1 hti hmem
    rw [hrun] at hok
    have hpair := Except.ok.inj hok
    rw [Prod.mk.injEq] at hpair
    obtain ⟨hdb2, ht⟩ := hpair
    subst hdb2
    subst ht
    refine ⟨rfl, ?_⟩
    have hfreshA := hwf.2.2.2.2.2.2.2.2
    have hup : GormTaskRepository.upsertAssignment db.assignments db.nextTaskID
        input.creatorID = db.assignments ++
        [{ taskID := db.nextTaskID, userID := input.creatorID, deleted := false }] :=
      upsert_fresh _ _ _ hfreshA
    have h0 : db.assignments.filter (fun r => r.taskID = db.nextTaskID ∧
        r.userID = input.creatorID ∧ r.deleted = false) = [] := by
      rw [List.filter_eq_nil_iff]
      intro r hr hp
      rw [decide_eq_true_eq] at hp
      exact absurd hp.1 (Nat.ne_of_lt (hfreshA r hr))
    show ((GormTaskRepository.upsertAssignment db.assignments db.nextTaskID
        input.creatorID).filter (fun r => r.taskID = db.nextTaskID ∧
        r.userID = input.creatorID ∧ r.deleted = false)).length = 1
    rw [hup, List.filter_append, h0]
    simp

/-- C4 witness: alice creating a task in her organization ends with exactly
one live assignment row tying her to the new task. -/
theorem createTask_self_assignment_check :
    TaskService.CreateTask dbEx 5
        { title := "y", description := "", status := "", dueDate := none
          organizationID := 1, creatorID := 1 } =
      .ok (createTaskResultDB dbEx 5
        { title := "y", description := "", status := "", dueDate := none
          organizationID := 1, creatorID := 1 },
        createdTask dbEx 5
        { title := "y", description := "", status := "", dueDate := none
          organizationID := 1, creatorID := 1 }) ∧
    (createdTask dbEx 5
        { title := "y", description := "", status := "", dueDate := none
          organizationID := 1, creatorID := 1 }).creatorID = 1 ∧
    (createTaskResultDB dbEx 5
        { title := "y", description := "", status := "", dueDate := none
          organizationID := 1, creatorID := 1 }).liveAssignCount
      (createdTask dbEx 5
        { title := "y", description := "", status := "", dueDate := none
          organizationID := 1, creatorID := 1 }).id 1 = 1 := by
  have hok := createTask_run dbEx 5
    { title := "y", description := "", status := "", dueDate := none
      organizationID := 1, creatorID := 1 } (by decide) (by decide) (by decide)
  have h := createTask_self_assignment dbEx 5
    { title := "y", description := "", status := "", dueDate := none
      organizationID := 1, creatorID := 1 } (by decide) _ _ hok
  exact ⟨hok, h.1, h.2⟩

/-! ### C5: AssignUsers is idempotent -/

/-- C5: once AssignUsers succeeds, the state holds exactly one live
assignment row per de-duplicated target, and running the identical call
again succeeds and leaves the state untouched. -/
theorem assignUsers_idempotent (db : DB) (input : TaskService.AssignUsersInput)
    (task : Task) (hwf : db.WF)
    (hfind : GormTaskRepository.FindByID db input.taskID = some task)
    (db2 : DB) (hok : TaskService.AssignUsers db input = .ok db2) :
    TaskService.AssignUsers db2 input = .ok db2 ∧
    ∀ uid ∈ input.userIDs, db2.liveAssignCount task.id uid = 1 := by
  by_cases hne : input.userIDs = []
  · simp only [TaskService.AssignUsers, if_pos hne] at hok
    cases hok
  simp only [TaskService.AssignUsers, if_neg hne, hfind] at hok
  by_cases hcr : task.creatorID ≠ input.actorID
  · rw [if_pos hcr] at hok
    cases hok
  rw [if_neg hcr] at hok
  by_cases hcnt : GormTaskRepository.CountUsersByIDs db (uniqueUint64 input.userIDs)
      task.organizationID ≠ (uniqueUint64 input.userIDs).length
  · rw [if_pos hcnt] at hok
    cases hok
  rw [if_neg hcnt] at hok
  have hdb2 : db2 = GormTaskRepository.AssignUsers db task.id
      (uniqueUint64 input.userIDs) := (Except.ok.inj hok).symm
  subst hdb2
  constructor
  · have hfind2 : GormTaskRepository.FindByID (GormTaskRepository.AssignUsers db
        task.id (uniqueUint64 input.userIDs)) input.taskID = some task := hfind
    simp only [TaskService.AssignUsers, if_neg hne, hfind2, if_neg hcr]
    have hcnt2 : ¬ GormTaskRepository.CountUsersByIDs
        (GormTaskRepository.AssignUsers db task.id (uniqueUint64 input.userIDs))
        (uniqueUint64 input.userIDs) task.organizationID ≠
        (uniqueUint64 input.userIDs).length := hcnt
    rw [if_neg hcnt2]
    have hridem : (uniqueUint64 input.userIDs).foldl
        (fun acc v => GormTaskRepository.upsertAssignment acc task.id v)
        ((uniqueUint64 input.userIDs).foldl
          (fun acc v => GormTaskRepository.upsertAssignment acc task.id v)
          db.assignments) =
        (uniqueUint64 input.userIDs).foldl
          (fun acc v => GormTaskRepository.upsertAssignment acc task.id v)
          db.assignments := by
      apply foldl_upsert_idem
      intro uid hu
      exact foldl_upsert_P task.id (uniqueUint64 input.userIDs) db.assignments uid hu
    exact congrArg (fun rows => (Except.ok ({ db with assignments := rows } : DB) : Except SvcError DB)) hridem
  · intro uid hu
    have hu2 : uid ∈ uniqueUint64 input.userIDs := (mem_uniqueUint64 _ _).mpr hu
    exact foldl_upsert_live task.id (uniqueUint64 input.userIDs) db.assignments
      (nodup_uniqueUint64 _) (fun w => wf_countKey_le_one db hwf task.id w) uid hu2

/-- C5 witness: after assigning bob to task 1 succeeds, repeating the same
call succeeds, changes nothing, and task 1 has exactly one live assignment
row for bob. -/
theorem assignUsers_idempotent_check :
    ∃ db2, TaskService.AssignUsers dbExB
        { taskID := 1, actorID := 1, userIDs := [2] } = .ok db2 ∧
      TaskService.AssignUsers db2
        { taskID := 1, actorID := 1, userIDs := [2] } = .ok db2 ∧
      db2.liveAssignCount 1 2 = 1 := by
  have hok : TaskService.AssignUsers dbExB
      { taskID := 1, actorID := 1, userIDs := [2] } =
      .ok (GormTaskRepository.AssignUsers dbExB 1 (uniqueUint64 [2])) := by decide
  have h := assignUsers_idempotent dbExB { taskID := 1, actorID := 1, userIDs := [2] }
    { id := 1, title := "task one", description := "", status := "TODO"
      dueDate := none, creatorID := 1, organizationID := 1, createdAt := 0
      deleted := false }
    (by decide) (by decide) _ hok
  exact ⟨_, hok, h.1, h.2 2 (by decide)⟩
